import Mathlib

/-!
Shallow embedding of the hybrid recommendation engine of
`src/backend/services/recommendationEngine.js` (the current version, lines
1-811), together with proofs settling the frozen claims about its
specification.

Modelling conventions:
* JS numbers are embedded as exact rationals `ℚ` (integers as `ℕ`/`ℤ` where
  the source only ever holds integers).  The two places where the source
  computes a transcendental quantity are handled specially:
  - the `Math.log(ratingCount+1)/Math.log(10000)` term of
    `calculatePopularityScore` is abstracted as a function parameter
    `L : ℕ → ℚ` in the executable pipeline, and embedded exactly (with
    `Real.log`) in `calculatePopularityScoreR`, which is the faithful model
    used for all claims about the value of that term;
  - the wall-clock exponential decays (`calculateRecencyScore`,
    `calculateRecencyWeight`) are abstracted as function parameters
    (`decayOf`, `recencyW`); no claim depends on their values.
* JS objects holding string-keyed accumulators are embedded as insertion
  ordered association lists `List (String × ℚ)`; `mapAdd` mirrors
  `obj[k] = (obj[k] || 0) + v` (update in place, append new keys), matching
  the insertion-order semantics of JS objects and `Map`.
* The JS falsy-default idiom `x || d` on numbers is `jsOr`; truthiness tests
  on optional numeric fields (`metadata.runtime && …`) are `numTruthy`.
* `Array.prototype.sort` with a numeric comparator is a stable sort
  (ES2019), embedded as `List.insertionSort` with the corresponding total
  preorder, which is stable and therefore produces the same list.
-/

/-- JS falsy-default idiom `x || d` on a number: a zero value falls back to `d`. -/
def jsOr (x d : ℚ) : ℚ := if x = 0 then d else x

/-- Truthiness of an optional numeric field: absent and zero are falsy. -/
def numTruthy : Option ℚ → Bool
  | none => false
  | some x => x != 0

/-- Catalog item (movie) as consumed by the engine.  `releaseYear` and
`runtime` are optional because the source guards them with truthiness
tests. -/
structure Movie where
  id : ℕ
  genres : List String
  directors : List String
  actors : List String
  releaseYear : Option ℚ
  runtime : Option ℚ
  averageRating : ℚ
  ratingCount : ℕ
  popularity : ℚ
deriving DecidableEq

/-- User action record as returned by the tracking service.  The optional
`metadata` object of the source is flattened into the record: `genres`,
`directors`, `actors` (absent ≙ empty list) and the optional numeric fields
`runtime`, `releaseYear`. -/
structure UAction where
  movieId : ℕ
  actionType : String
  value : ℚ
  timestamp : ℤ
  genres : List String
  directors : List String
  actors : List String
  runtime : Option ℚ
  releaseYear : Option ℚ
deriving DecidableEq

/-- Runtime preference window `{min, max, ideal}`. -/
structure RuntimePref where
  min : ℚ
  max : ℚ
  ideal : ℚ
deriving DecidableEq

/-- Release-year preference window `{min, max}`. -/
structure YearPref where
  min : ℚ
  max : ℚ
deriving DecidableEq

/-- Result of `calculateUserPreferences`. -/
structure Preferences where
  genres : List (String × ℚ)
  directors : List (String × ℚ)
  actors : List (String × ℚ)
  runtimePreference : RuntimePref
  yearPreference : YearPref
  avgRating : ℚ
  ratingVariance : ℚ
  ratingThreshold : ℚ
deriving DecidableEq

/-- User profile as produced by `getUserProfile`.  `preferences = none`
models the degenerate error-path profile `{ userId, ratingCount: 0,
recentActions: [] }`, whose missing fields read as `undefined` (hence `0`
through the `|| 0` defaults in `calculateWeights`). -/
structure UserProfile where
  ratingCount : ℕ
  avgRating : ℚ
  ratingVariance : ℚ
  timeActive : ℤ
  engagement : ℚ
  lastActive : Option ℤ
  sessionDepth : ℚ
  recencyScore : ℚ
  recentActions : List UAction
  preferences : Option Preferences
deriving DecidableEq

/-- Per-strategy score record `{movieId, movie, score, source}`.  The
`movie` field is optional: on the collaborative-matrix path the source may
fail to resolve a movie (`availableMovies.find` can be `undefined`). -/
structure ScoreRecord where
  movieId : ℕ
  movie : Option Movie
  score : ℚ
  source : String
deriving DecidableEq

/-- Strategy weight vector. -/
structure Weights where
  content : ℚ
  collaborative : ℚ
  sequence : ℚ
  rule : ℚ
deriving DecidableEq

/-- Entry of the fusion `Map` of `combineScores` before the hybrid score is
attached. -/
structure FusionEntry where
  movieId : ℕ
  movie : Movie
  contentScore : ℚ
  collaborativeScore : ℚ
  sequenceScore : ℚ
  ruleScore : ℚ
  explanation : Option (List String)
deriving DecidableEq

/-- Fused record produced by `combineScores`. -/
structure HybridRecord where
  movieId : ℕ
  movie : Movie
  contentScore : ℚ
  collaborativeScore : ℚ
  sequenceScore : ℚ
  ruleScore : ℚ
  explanation : Option (List String)
  score : ℚ
  weights : Weights
  source : String
deriving DecidableEq

/-- Matrix-factorization prediction `{movieId, score}`. -/
structure Prediction where
  movieId : ℕ
  score : ℚ
deriving DecidableEq

/-- Similar user as consumed by `calculateCollaborativeScore`; the per-user
tracking read (`getUserActions(user.userId, 1000, 'rate')`) is inlined as
the `ratings` field (pairs of movieId and rating value). -/
structure SimilarUser where
  similarity : ℚ
  ratings : List (ℕ × ℚ)
deriving DecidableEq

/-- Rule preferences extracted by `extractRulePreferences`. -/
structure RulePrefs where
  preferredGenres : List String
  minRating : ℚ
  yearRange : YearPref
  runtimeRange : RuntimePref
deriving DecidableEq

/-- Options object of `generateRecommendations` (defaults: 25, true, true,
0.5, 0.25, false). -/
structure RecOptions where
  count : ℕ
  excludeRated : Bool
  excludeWatchlist : Bool
  minScore : ℚ
  diversityFactor : ℚ
  includeExplanations : Bool
deriving DecidableEq

/-- Session timeout constant `30 * 60 * 1000` milliseconds. -/
def DEFAULT_SESSION_TIMEOUT : ℤ := 30 * 60 * 1000

/-- Sequence window constant. -/
def DEFAULT_SEQUENCE_WINDOW : ℕ := 20

/-- JS object accumulator update `obj[k] = (obj[k] || 0) + v`: add to an
existing key in place, append a new key at the end. -/
def mapAdd (m : List (String × ℚ)) (k : String) (v : ℚ) : List (String × ℚ) :=
  if (m.lookup k).isSome then m.map (fun p => if p.1 = k then (p.1, p.2 + v) else p)
  else m ++ [(k, v)]

/-- Shared numeric `normalizeScore`: map a raw 1–10 signal into `[0,1]`. -/
def normalizeScore (score : ℚ) : ℚ :=
  if score < 1 then 0 else if score > 10 then 1 else (score - 1) / 9

/-- Shared numeric `normalizeRatingSignal`. -/
def normalizeRatingSignal (value : ℚ) : ℚ :=
  max (-1) (min 1 ((value - 5.5) / 4.5))

/-- Action-type boost table of the sequence scorer (`actionTypeBoost`).
Note the JS defaults: `(value || 0)` for `watchTime` and `(value || 5)` for
`rate`, so a `rate` action with value `0` is boosted as if it were `5`. -/
def actionTypeBoost (actionType : String) (value : ℚ) : ℚ :=
  if actionType = "watchTime" then min 1.2 (jsOr value 0 / 60)
  else if actionType = "rate" then jsOr value 5 / 10
  else if actionType = "add_watchlist" then 0.7
  else if actionType = "view" then 0.5
  else 0.4

/-- Popularity score over the executable pipeline; `L` abstracts the
transcendental `Math.log(ratingCount + 1) / Math.log(10000)` term (see
`calculatePopularityScoreR` for its exact real-number embedding). -/
def calculatePopularityScore (L : ℕ → ℚ) (m : Movie) : ℚ :=
  let popularityScore := jsOr m.popularity 0 / 100
  let ratingScore := jsOr m.averageRating 0 / 10
  let ratingCountScore := L m.ratingCount
  popularityScore * 0.4 + ratingScore * 0.4 + ratingCountScore * 0.2

/-- Exact embedding of the `Math.log` term of `calculatePopularityScore`. -/
noncomputable def logCountScore (ratingCount : ℕ) : ℝ :=
  Real.log (ratingCount + 1) / Real.log 10000

/-- Exact real-number embedding of `calculatePopularityScore` (the `|| 0`
defaults are identities once popularity and averageRating are numbers). -/
noncomputable def calculatePopularityScoreR (popularity averageRating : ℝ)
    (ratingCount : ℕ) : ℝ :=
  popularity / 100 * 0.4 + averageRating / 10 * 0.4 + logCountScore ratingCount * 0.2

/-- Population variance of rating values (`calculateRatingVariance`). -/
def calculateRatingVariance (ratings : List UAction) : ℚ :=
  if ratings.length < 2 then 0
  else
    let mean := (ratings.map (·.value)).sum / ratings.length
    ((ratings.map (fun r => (r.value - mean) ^ 2)).sum) / ratings.length

/-- Stable ascending sort by timestamp, modelling
`actions.sort((a, b) => new Date(a.timestamp) - new Date(b.timestamp))`. -/
def sortByTimestamp (actions : List UAction) : List UAction :=
  List.insertionSort (fun a b => a.timestamp ≤ b.timestamp) actions

/-- Loop body of `groupActionsBySessions`: `cur` is the current session in
reverse (head = most recently pushed action); a gap above `t` emits the
current session and starts a new one. -/
def sessionGo (t : ℤ) (cur : List UAction) : List UAction → List (List UAction)
  | [] => [cur.reverse]
  | a :: rest =>
    match cur with
    | [] => sessionGo t [a] rest
    | last :: _ =>
      if a.timestamp - last.timestamp ≤ t then sessionGo t (a :: cur) rest
      else cur.reverse :: sessionGo t [a] rest

/-- Session grouping (`groupActionsBySessions`): sort ascending by
timestamp, then split whenever the gap exceeds `t`. -/
def groupActionsBySessions (actions : List UAction) (t : ℤ) : List (List UAction) :=
  match sortByTimestamp actions with
  | [] => []
  | a :: rest => sessionGo t [a] rest

/-- Recency score (`calculateRecencyScore`); `decayOf` abstracts the
wall-clock exponential `exp(−ln 2 · hoursSince(ts)/24)` applied to the most
recent timestamp. -/
def calculateRecencyScore (decayOf : ℤ → ℚ) (actions : List UAction) : ℚ :=
  if actions = [] then 0
  else min 1 (max 0 (decayOf (((actions.map (·.timestamp)).max?).getD 0)))

/-- Accumulator of `calculateUserPreferences`. -/
structure PrefAcc where
  genrePreferences : List (String × ℚ)
  directorPreferences : List (String × ℚ)
  actorPreferences : List (String × ℚ)
  genreCounts : List (String × ℚ)
  directorCounts : List (String × ℚ)
  actorCounts : List (String × ℚ)
  runtimeSignals : List (ℚ × ℚ)
  yearSignals : List (ℚ × ℚ)

/-- Empty accumulator. -/
def emptyPrefAcc : PrefAcc := ⟨[], [], [], [], [], [], [], []⟩

/-- One iteration of the `ratings.forEach` loop of
`calculateUserPreferences`. -/
def prefStep (acc : PrefAcc) (rating : UAction) : PrefAcc :=
  let ratingSignal := normalizeRatingSignal rating.value
  { genrePreferences := rating.genres.foldl (fun m g => mapAdd m g ratingSignal) acc.genrePreferences
    directorPreferences := rating.directors.foldl (fun m d => mapAdd m d ratingSignal) acc.directorPreferences
    actorPreferences := rating.actors.foldl (fun m a => mapAdd m a ratingSignal) acc.actorPreferences
    genreCounts := rating.genres.foldl (fun m g => mapAdd m g 1) acc.genreCounts
    directorCounts := rating.directors.foldl (fun m d => mapAdd m d 1) acc.directorCounts
    actorCounts := rating.actors.foldl (fun m a => mapAdd m a 1) acc.actorCounts
    runtimeSignals :=
      if numTruthy rating.runtime ∧ ratingSignal > 0 then
        acc.runtimeSignals ++ [(rating.runtime.getD 0, ratingSignal)]
      else acc.runtimeSignals
    yearSignals :=
      if numTruthy rating.releaseYear ∧ ratingSignal > 0 then
        acc.yearSignals ++ [(rating.releaseYear.getD 0, ratingSignal)]
      else acc.yearSignals }

/-- The `normalizePreferenceMap` helper: divide each accumulated signal by
its count (`counts[key] || 1`). -/
def normalizePreferenceMap (preferences counts : List (String × ℚ)) : List (String × ℚ) :=
  preferences.map (fun p => (p.1, p.2 / jsOr ((counts.lookup p.1).getD 0) 1))

/-- Runtime preference from positively weighted signals
(`calculateRuntimePreference`). -/
def calculateRuntimePreference (runtimeSignals : List (ℚ × ℚ)) : RuntimePref :=
  if runtimeSignals = [] then ⟨70, 190, 120⟩
  else
    let weightedSum := (runtimeSignals.map (fun s => s.1 * s.2)).sum
    let totalWeight := jsOr ((runtimeSignals.map (·.2)).sum) 1
    let ideal := weightedSum / totalWeight
    ⟨max 50 (ideal - 40), ideal + 50, ideal⟩

/-- Year preference from positively weighted signals
(`calculateYearPreference`); `currentYear` models
`new Date().getFullYear()`. -/
def calculateYearPreference (currentYear : ℚ) (yearSignals : List (ℚ × ℚ)) : YearPref :=
  if yearSignals = [] then ⟨1980, currentYear⟩
  else
    let weightedSum := (yearSignals.map (fun s => s.1 * s.2)).sum
    let totalWeight := jsOr ((yearSignals.map (·.2)).sum) 1
    let ideal := weightedSum / totalWeight
    ⟨max 1950 ((⌊ideal - 15⌋ : ℤ) : ℚ), min currentYear ((⌈ideal + 15⌉ : ℤ) : ℚ)⟩

/-- The `calculateUserPreferences` aggregation over the rating history. -/
def calculateUserPreferences (currentYear : ℚ) (ratings : List UAction) : Preferences :=
  let acc := ratings.foldl prefStep emptyPrefAcc
  { genres := normalizePreferenceMap acc.genrePreferences acc.genreCounts
    directors := normalizePreferenceMap acc.directorPreferences acc.directorCounts
    actors := normalizePreferenceMap acc.actorPreferences acc.actorCounts
    runtimePreference := calculateRuntimePreference acc.runtimeSignals
    yearPreference := calculateYearPreference currentYear acc.yearSignals
    avgRating := (ratings.map (·.value)).sum / jsOr (ratings.length : ℚ) 1
    ratingVariance := calculateRatingVariance ratings
    ratingThreshold := 6.5 }

/-- The `getUserProfile` derivation, as a pure function of the tracking
reads (`ratings`, `recentActions`, `allActions`), the wall clock (`now` in
epoch milliseconds, `currentYear`) and the abstracted exponential decay
`decayOf` of `calculateRecencyScore`.  `Math.floor` of the day quotient is
integer floor division (`Int.fdiv`). -/
def getUserProfile (decayOf : ℤ → ℚ) (now : ℤ) (currentYear : ℚ)
    (ratings recentActions allActions : List UAction) : UserProfile :=
  let preferences := calculateUserPreferences currentYear ratings
  let firstRating := ((ratings.map (·.timestamp)).min?).getD now
  let sessions := groupActionsBySessions allActions DEFAULT_SESSION_TIMEOUT
  { ratingCount := ratings.length
    avgRating := if 0 < ratings.length then (ratings.map (·.value)).sum / ratings.length else 0
    ratingVariance := preferences.ratingVariance
    timeActive := (now - firstRating).fdiv (1000 * 60 * 60 * 24)
    engagement := if 0 < sessions.length then (allActions.length : ℚ) / sessions.length else 0
    lastActive := (ratings.map (·.timestamp)).max?
    sessionDepth :=
      if 0 < sessions.length then min 1 (((sessions.getLast?.getD []).length : ℚ) / 10) else 0
    recencyScore := calculateRecencyScore decayOf recentActions
    recentActions := recentActions.take DEFAULT_SEQUENCE_WINDOW
    preferences := some preferences }

/-- The degenerate error-path profile `{ userId, ratingCount: 0,
recentActions: [] }`. -/
def degenerateProfile : UserProfile :=
  { ratingCount := 0, avgRating := 0, ratingVariance := 0, timeActive := 0
    engagement := 0, lastActive := none, sessionDepth := 0, recencyScore := 0
    recentActions := [], preferences := none }

/-- Profile fixture differing only in the weight-policy inputs
(`ratingCount`, `sessionDepth`, `recencyScore`); all other fields are
irrelevant to `calculateWeights`. -/
def profileOf (ratingCount : ℕ) (sessionDepth recencyScore : ℚ) : UserProfile :=
  { ratingCount, avgRating := 0, ratingVariance := 0, timeActive := 0
    engagement := 0, lastActive := none, sessionDepth, recencyScore
    recentActions := [], preferences := none }

/-- Mean (or max) of adjusted preference weights over the item's attributes
(`calculatePreferenceScore`). -/
def calculatePreferenceScore (items : List String) (preferenceMap : List (String × ℚ))
    (useMax : Bool) : ℚ :=
  if items = [] ∨ preferenceMap = [] then 0.5
  else
    let scores := items.filterMap (fun i => preferenceMap.lookup i)
    if scores = [] then 0.45
    else
      let adjustedScores := scores.map (fun s => (s + 1) / 2)
      if useMax then (adjustedScores.max?).getD 0
      else adjustedScores.sum / adjustedScores.length

/-- Runtime sub-score of the content scorer (`calculateRuntimeScore`); the
preference object itself is always truthy, so only `movie.runtime` is
truthiness-tested. -/
def calculateRuntimeScore (m : Movie) (runtimePreference : RuntimePref) : ℚ :=
  if ¬ numTruthy m.runtime then 0.5
  else
    let rt := m.runtime.getD 0
    if rt < runtimePreference.min ∨ rt > runtimePreference.max then 0.2
    else
      let distance := |rt - runtimePreference.ideal|
      let maxDistance := max (runtimePreference.ideal - runtimePreference.min)
        (runtimePreference.max - runtimePreference.ideal)
      1 - distance / jsOr maxDistance 1

/-- Year sub-score of the content scorer (`calculateYearScore`). -/
def calculateYearScore (m : Movie) (yearPreference : YearPref) : ℚ :=
  if ¬ numTruthy m.releaseYear then 0.5
  else
    let y := m.releaseYear.getD 0
    if y < yearPreference.min ∨ y > yearPreference.max then 0.3 else 1

/-- Content similarity (`calculateContentSimilarity`); the
`!userPreferences` random branch of the source is unreachable from
`contentBasedRecommendation`, which already guards on present
preferences. -/
def calculateContentSimilarity (m : Movie) (p : Preferences) : ℚ :=
  let genreScore := calculatePreferenceScore m.genres p.genres false
  let directorScore := calculatePreferenceScore m.directors p.directors true
  let actorScore := calculatePreferenceScore m.actors p.actors false
  let runtimeScore := calculateRuntimeScore m p.runtimePreference
  let yearScore := calculateYearScore m p.yearPreference
  normalizeScore ((genreScore * 0.4 + directorScore * 0.2 + actorScore * 0.2 +
    runtimeScore * 0.1 + yearScore * 0.1) * 10)

/-- Popularity fallback used on every cold path (`popularityFallback`). -/
def popularityFallback (L : ℕ → ℚ) (movies : List Movie) (source : String) : List ScoreRecord :=
  movies.map (fun m => ⟨m.id, some m, calculatePopularityScore L m, source⟩)

/-- Content scorer (`contentBasedRecommendation`). -/
def contentBasedRecommendation (L : ℕ → ℚ) (availableMovies : List Movie)
    (userProfile : UserProfile) : List ScoreRecord :=
  match userProfile.preferences with
  | none => popularityFallback L availableMovies "content-cold"
  | some preferences =>
    if userProfile.ratingCount = 0 then popularityFallback L availableMovies "content-cold"
    else availableMovies.map (fun m =>
      ⟨m.id, some m, calculateContentSimilarity m preferences, "content-based"⟩)

/-- Neighbour finder (`findSimilarUsers`): the source returns the empty
list on both branches (placeholder implementation). -/
def findSimilarUsers (userRatings : List UAction) : List SimilarUser :=
  if userRatings.length = 0 then [] else []

/-- Weighted neighbour rating (`calculateCollaborativeScore`). -/
def calculateCollaborativeScore (movieId : ℕ) (similarUsers : List SimilarUser) : ℚ :=
  if similarUsers.length = 0 then 0
  else
    let acc := similarUsers.foldl (fun (acc : ℚ × ℚ) u =>
      match u.ratings.find? (fun r => r.1 == movieId) with
      | some r => (acc.1 + r.2 * u.similarity, acc.2 + u.similarity)
      | none => acc) (0, 0)
    if acc.2 > 0 then normalizeScore (acc.1 / acc.2) else 0

/-- Collaborative fallback (`userBasedCollaborativeFiltering`). -/
def userBasedCollaborativeFiltering (L : ℕ → ℚ) (userRatings : List UAction)
    (availableMovies : List Movie) : List ScoreRecord :=
  let similarUsers := findSimilarUsers userRatings
  if similarUsers.length = 0 then popularityFallback L availableMovies "collaborative-cold"
  else availableMovies.map (fun m =>
    ⟨m.id, some m, calculateCollaborativeScore m.id similarUsers, "collaborative-user"⟩)

/-- Collaborative scorer (`collaborativeFiltering`); `predictions` is the
matrix-factorization output, `userRatings` the tracking read consumed by
`findSimilarUsers`. -/
def collaborativeFiltering (L : ℕ → ℚ) (predictions : List Prediction)
    (userRatings : List UAction) (availableMovies : List Movie) : List ScoreRecord :=
  if predictions.length = 0 then userBasedCollaborativeFiltering L userRatings availableMovies
  else predictions.map (fun pred =>
    ⟨pred.movieId, availableMovies.find? (fun m => m.id == pred.movieId),
      normalizeScore pred.score, "collaborative-matrix"⟩)

/-- Session signal accumulator of the sequence scorer. -/
structure SessionSignals where
  genres : List (String × ℚ)
  directors : List (String × ℚ)
  actors : List (String × ℚ)
  totalWeight : ℚ
deriving DecidableEq

/-- Session signals (`buildSessionSignals`); `recencyW ts i` abstracts the
wall-clock `calculateRecencyWeight(timestamp, index)` exponential. -/
def buildSessionSignals (recencyW : ℤ → ℕ → ℚ) (actions : List UAction) : SessionSignals :=
  actions.enum.foldl (fun (s : SessionSignals) p =>
    let index := p.1
    let action := p.2
    let actionWeight := recencyW action.timestamp index *
      actionTypeBoost action.actionType action.value
    { genres := action.genres.foldl (fun m g => mapAdd m g actionWeight) s.genres
      directors := action.directors.foldl (fun m d => mapAdd m d actionWeight) s.directors
      actors := action.actors.foldl (fun m a => mapAdd m a actionWeight) s.actors
      totalWeight := s.totalWeight + actionWeight }) ⟨[], [], [], 0⟩

/-- Session similarity (`calculateSessionSimilarity`). -/
def calculateSessionSimilarity (m : Movie) (sessionSignals : SessionSignals) : ℚ :=
  if sessionSignals.totalWeight = 0 then 0.4
  else
    normalizeScore ((calculatePreferenceScore m.genres sessionSignals.genres false * 0.5 +
      calculatePreferenceScore m.directors sessionSignals.directors true * 0.3 +
      calculatePreferenceScore m.actors sessionSignals.actors false * 0.2) * 10)

/-- Sequence scorer (`sequenceBasedRecommendation`). -/
def sequenceBasedRecommendation (L : ℕ → ℚ) (recencyW : ℤ → ℕ → ℚ)
    (availableMovies : List Movie) (userProfile : UserProfile) : List ScoreRecord :=
  let recentActions := userProfile.recentActions
  if recentActions.length = 0 then popularityFallback L availableMovies "sequence-cold"
  else
    let recentSignals := buildSessionSignals recencyW recentActions
    availableMovies.map (fun m =>
      ⟨m.id, some m, calculateSessionSimilarity m recentSignals, "sequence"⟩)

/-- Rule preferences (`extractRulePreferences`).  The source guard is
`!preferences || !preferences.genres`; a preferences object built by
`calculateUserPreferences` always carries a (possibly empty, still truthy)
`genres` object, so only the absent-preferences case yields `null`. -/
def extractRulePreferences (userProfile : UserProfile) : Option RulePrefs :=
  match userProfile.preferences with
  | none => none
  | some preferences =>
    let sortedGenres :=
      ((List.insertionSort (fun a b : String × ℚ => b.2 ≤ a.2) preferences.genres).take 3).map (·.1)
    some ⟨sortedGenres, jsOr preferences.ratingThreshold 6.5,
      preferences.yearPreference, preferences.runtimePreference⟩

/-- Rule score (`calculateRuleScore`).  Note `movie.releaseYear` is range
compared without a truthiness test here (an absent year simply fails the
comparison), unlike `movie.runtime`, which is truthiness-guarded. -/
def calculateRuleScore (m : Movie) (rulePreferences : RulePrefs) : ℚ :=
  let score : ℚ := 0.4
  let score :=
    if rulePreferences.preferredGenres.length ≠ 0 then
      let genreMatches := m.genres.filter (fun g => rulePreferences.preferredGenres.contains g)
      score + min 0.4 ((genreMatches.length : ℚ) * 0.15)
    else score
  let score :=
    match m.releaseYear with
    | some y =>
      if rulePreferences.yearRange.min ≤ y ∧ y ≤ rulePreferences.yearRange.max then score + 0.1
      else score
    | none => score
  let score :=
    if numTruthy m.runtime then
      let rt := m.runtime.getD 0
      if rulePreferences.runtimeRange.min ≤ rt ∧ rt ≤ rulePreferences.runtimeRange.max then
        score + 0.1
      else score
    else score
  let score := if rulePreferences.minRating ≤ jsOr m.averageRating 0 then score + 0.1 else score
  normalizeScore (score * 10)

/-- Rule scorer (`ruleBasedRecommendation`). -/
def ruleBasedRecommendation (L : ℕ → ℚ) (availableMovies : List Movie)
    (userProfile : UserProfile) : List ScoreRecord :=
  match extractRulePreferences userProfile with
  | none => popularityFallback L availableMovies "rule-cold"
  | some rulePreferences => availableMovies.map (fun m =>
    ⟨m.id, some m, calculateRuleScore m rulePreferences, "rule-based"⟩)

/-- Weight normalization (`normalizeWeights`): divide by the component sum
(`|| 1` when the sum is zero) and clamp each quotient at `0`. -/
def normalizeWeights (w : Weights) : Weights :=
  let total := jsOr (w.content + w.collaborative + w.sequence + w.rule) 1
  ⟨max 0 (w.content / total), max 0 (w.collaborative / total),
    max 0 (w.sequence / total), max 0 (w.rule / total)⟩

/-- Maturity-adaptive weight policy (`calculateWeights`). -/
def calculateWeights (userProfile : UserProfile) : Weights :=
  let ratingCount := userProfile.ratingCount
  let sessionDepth := userProfile.sessionDepth
  let recencyScore := userProfile.recencyScore
  if ratingCount < 5 then
    normalizeWeights ⟨0.4, 0.1, 0.2 + recencyScore * 0.1, 0.3⟩
  else if ratingCount < 25 then
    normalizeWeights ⟨0.35, 0.25, 0.25 + sessionDepth * 0.05, 0.15⟩
  else
    normalizeWeights ⟨0.25, 0.45, 0.2 + recencyScore * 0.1, 0.1⟩

/-- Strategy slot selector for the fusion map. -/
inductive StratKey where
  | content
  | collaborative
  | sequence
  | rule
deriving DecidableEq

/-- Write a strategy slot of a fusion entry. -/
def setStrat (k : StratKey) (v : ℚ) (e : FusionEntry) : FusionEntry :=
  match k with
  | .content => { e with contentScore := v }
  | .collaborative => { e with collaborativeScore := v }
  | .sequence => { e with sequenceScore := v }
  | .rule => { e with ruleScore := v }

/-- Read a strategy slot of a fusion entry. -/
def getStrat (k : StratKey) (e : FusionEntry) : ℚ :=
  match k with
  | .content => e.contentScore
  | .collaborative => e.collaborativeScore
  | .sequence => e.sequenceScore
  | .rule => e.ruleScore

/-- One step of the `ingestScores` closure of `combineScores`: skip records
without a resolved movie, create a zeroed entry for unseen movieIds
(insertion order), then write `item.score || 0` into the strategy slot. -/
def ingestOne (includeExplanations : Bool) (k : StratKey) (m : List FusionEntry)
    (item : ScoreRecord) : List FusionEntry :=
  match item.movie with
  | none => m
  | some mv =>
    let m1 :=
      if m.any (fun e => e.movieId == item.movieId) then m
      else m ++ [⟨item.movieId, mv, 0, 0, 0, 0, if includeExplanations then some [] else none⟩]
    m1.map (fun e => if e.movieId == item.movieId then setStrat k (jsOr item.score 0) e else e)

/-- Ingest a whole strategy output into the fusion map. -/
def ingestScores (includeExplanations : Bool) (k : StratKey) (m : List FusionEntry)
    (scores : List ScoreRecord) : List FusionEntry :=
  scores.foldl (ingestOne includeExplanations k) m

/-- Reason tags (`generateExplanations`); display strings as in source. -/
def generateExplanations (e : FusionEntry) (w : Weights) : List String :=
  (if e.contentScore > 0.7 ∧ w.content > 0.2 then ["Güçlü içerik uyumu"] else []) ++
  (if e.collaborativeScore > 0.7 ∧ w.collaborative > 0.2 then
    ["Benzer zevke sahip kullanıcıların tercihi"] else []) ++
  (if e.sequenceScore > 0.7 ∧ w.sequence > 0.2 then ["Son izleme akışına göre önerildi"] else []) ++
  (if e.ruleScore > 0.6 ∧ w.rule > 0.1 then ["Onboarding tercihlerinize uygun"] else [])

/-- Fusion (`combineScores`): ingest the four strategy outputs into the
movieId-keyed map, then attach the linear hybrid score. -/
def combineScores (contentScores collaborativeScores sequenceScores ruleScores : List ScoreRecord)
    (weights : Weights) (includeExplanations : Bool) : List HybridRecord :=
  let m := ingestScores includeExplanations .content [] contentScores
  let m := ingestScores includeExplanations .collaborative m collaborativeScores
  let m := ingestScores includeExplanations .sequence m sequenceScores
  let m := ingestScores includeExplanations .rule m ruleScores
  m.map (fun e =>
    let hybridScore := e.contentScore * weights.content +
      e.collaborativeScore * weights.collaborative +
      e.sequenceScore * weights.sequence + e.ruleScore * weights.rule
    let explanation :=
      if includeExplanations ∧ e.explanation.isSome then some (generateExplanations e weights)
      else e.explanation
    ⟨e.movieId, e.movie, e.contentScore, e.collaborativeScore, e.sequenceScore, e.ruleScore,
      explanation, hybridScore, weights, "hybrid"⟩)

/-- Greedy walk of `applyDiversityFilter` over the score-sorted records,
tracking the already selected genre and director sets (embedded as lists,
membership-equivalent to JS `Set`). -/
def diversityWalk (diversityFactor : ℚ) (selectedGenres selectedDirectors : List String) :
    List HybridRecord → List HybridRecord
  | [] => []
  | r :: rest =>
    let genres := r.movie.genres
    let directors := r.movie.directors
    let genreOverlap := genres.any (fun g => selectedGenres.contains g)
    let directorOverlap := directors.any (fun d => selectedDirectors.contains d)
    let diversityPenalty : ℚ :=
      (if genreOverlap then 0.3 else 0) + (if directorOverlap then 0.2 else 0)
    { r with score := r.score * (1 - diversityPenalty * diversityFactor) } ::
      diversityWalk diversityFactor (selectedGenres ++ genres) (selectedDirectors ++ directors) rest

/-- Diversity stage (`applyDiversityFilter`): skipped entirely when
`diversityFactor` is falsy or non-positive, otherwise rescore every record
along the greedy walk (none dropped). -/
def applyDiversityFilter (recommendations : List HybridRecord) (diversityFactor : ℚ) :
    List HybridRecord :=
  if diversityFactor ≤ 0 then recommendations
  else diversityWalk diversityFactor [] []
    (List.insertionSort (fun a b => b.score ≤ a.score) recommendations)

/-- Final ranking stage of the orchestrator (lines 60–63): min-score
filter, stable sort by score descending, take the first `count`. -/
def rankRecommendations (minScore : ℚ) (count : ℕ) (l : List HybridRecord) : List HybridRecord :=
  ((List.insertionSort (fun a b => b.score ≤ a.score)
    (l.filter (fun item => minScore ≤ item.score))).take count)

/-- Candidate fetch (`getAvailableMovies`) exactly as in the source: the
`allMovies` base list is the empty literal, so every path yields `[]`. -/
def getAvailableMovies (excludeRated excludeWatchlist : Bool)
    (ratedIds watchlistIds : List ℕ) : List Movie :=
  let allMovies : List Movie := []
  if ¬ excludeRated ∧ ¬ excludeWatchlist then allMovies
  else
    let excludedMovieIds :=
      (if excludeRated then ratedIds else []) ++ (if excludeWatchlist then watchlistIds else [])
    allMovies.filter (fun m => ¬ excludedMovieIds.contains m.id)

/-- Modelled from the spec: the catalog source of §6 is absent from the
source (`getAvailableMovies` hardcodes `allMovies = []`, a gap the spec
flags as an open question); this variant supplies the catalog as the
`allMovies` parameter and otherwise follows the source's exclusion
filtering verbatim. -/
def getAvailableMoviesWithCatalog (allMovies : List Movie) (excludeRated excludeWatchlist : Bool)
    (ratedIds watchlistIds : List ℕ) : List Movie :=
  if ¬ excludeRated ∧ ¬ excludeWatchlist then allMovies
  else
    let excludedMovieIds :=
      (if excludeRated then ratedIds else []) ++ (if excludeWatchlist then watchlistIds else [])
    allMovies.filter (fun m => ¬ excludedMovieIds.contains m.id)

/-- Orchestrator (`generateRecommendations`) as a pure function of its
external reads: the cache lookup result, the derived profile, the matrix
predictions, the tracking reads (user ratings for `findSimilarUsers`, rated
and watchlisted movie ids for the exclusion filter) and the options.  The
returned pair is (response, cache write): `none` as second component means
no `setex` was performed. -/
def generateRecommendations (L : ℕ → ℚ) (recencyW : ℤ → ℕ → ℚ)
    (cached : Option (List HybridRecord)) (userProfile : UserProfile)
    (predictions : List Prediction) (userRatings : List UAction)
    (ratedIds watchlistIds : List ℕ) (opts : RecOptions) :
    List HybridRecord × Option (List HybridRecord) :=
  match cached with
  | some v => (v, none)
  | none =>
    let weights := calculateWeights userProfile
    let availableMovies := getAvailableMovies opts.excludeRated opts.excludeWatchlist
      ratedIds watchlistIds
    if availableMovies.length = 0 then ([], none)
    else
      let contentScores := contentBasedRecommendation L availableMovies userProfile
      let collaborativeScores := collaborativeFiltering L predictions userRatings availableMovies
      let sequenceScores := sequenceBasedRecommendation L recencyW availableMovies userProfile
      let ruleScores := ruleBasedRecommendation L availableMovies userProfile
      let hybridScores := combineScores contentScores collaborativeScores sequenceScores ruleScores
        weights opts.includeExplanations
      let diversifiedScores := applyDiversityFilter hybridScores opts.diversityFactor
      let recommendations := rankRecommendations opts.minScore opts.count diversifiedScores
      (recommendations, some recommendations)

/-- Modelled from the spec: the orchestrator wired to a working catalog
source (§6), which the source lacks; identical to `generateRecommendations`
except that the candidate fetch is `getAvailableMoviesWithCatalog` over the
supplied `allMovies`. -/
def generateRecommendationsWithCatalog (L : ℕ → ℚ) (recencyW : ℤ → ℕ → ℚ)
    (allMovies : List Movie) (cached : Option (List HybridRecord)) (userProfile : UserProfile)
    (predictions : List Prediction) (userRatings : List UAction)
    (ratedIds watchlistIds : List ℕ) (opts : RecOptions) :
    List HybridRecord × Option (List HybridRecord) :=
  match cached with
  | some v => (v, none)
  | none =>
    let weights := calculateWeights userProfile
    let availableMovies := getAvailableMoviesWithCatalog allMovies opts.excludeRated
      opts.excludeWatchlist ratedIds watchlistIds
    if availableMovies.length = 0 then ([], none)
    else
      let contentScores := contentBasedRecommendation L availableMovies userProfile
      let collaborativeScores := collaborativeFiltering L predictions userRatings availableMovies
      let sequenceScores := sequenceBasedRecommendation L recencyW availableMovies userProfile
      let ruleScores := ruleBasedRecommendation L availableMovies userProfile
      let hybridScores := combineScores contentScores collaborativeScores sequenceScores ruleScores
        weights opts.includeExplanations
      let diversifiedScores := applyDiversityFilter hybridScores opts.diversityFactor
      let recommendations := rankRecommendations opts.minScore opts.count diversifiedScores
      (recommendations, some recommendations)

/-- Fixture movie for the S3 fusion-arithmetic scenario. -/
def s3Movie : Movie :=
  ⟨1, [], [], [], none, none, 0, 0, 0⟩

/-- Fixture strategy output holding a single record for `s3Movie` with the
given score. -/
def s3Input (score : ℚ) : List ScoreRecord :=
  [⟨1, some s3Movie, score, "fixture"⟩]

/-- Fixture weights `{0.4, 0.3, 0.2, 0.1}` of the S3 scenario. -/
def s3Weights : Weights :=
  ⟨0.4, 0.3, 0.2, 0.1⟩

/-- Fixture movie for the diversity-filter witness: id `i`, one shared
genre. -/
def demoDivMovie (i : ℕ) : Movie :=
  ⟨i, ["drama"], [], [], none, none, 0, 0, 0⟩

/-- Fixture hybrid records for the diversity-filter witness: two records
with overlapping genre and equal scores. -/
def demoDivRecs : List HybridRecord :=
  [⟨1, demoDivMovie 1, 0, 0, 0, 0, none, 1/2, ⟨0, 0, 0, 0⟩, "hybrid"⟩,
   ⟨2, demoDivMovie 2, 0, 0, 0, 0, none, 1/2, ⟨0, 0, 0, 0⟩, "hybrid"⟩]

/-- Fixture action with a given timestamp (milliseconds). -/
def demoAction (ts : ℤ) : UAction :=
  ⟨0, "view", 0, ts, [], [], [], none, none⟩

/-- Fixture action list for the session-grouping witness: timestamps 15
minutes, 0 and 60 minutes (out of order on input). -/
def demoActions : List UAction :=
  [demoAction 900000, demoAction 0, demoAction 3600000]

/-- Fixture movie for the cold-start claim. -/
def demoC4Movie : Movie :=
  ⟨7, ["action"], [], [], none, none, 8, 0, 50⟩

/-- The ranking order asserted by the claim: score descending with ties
broken by itemId ascending. -/
def SortedByScoreThenId (l : List HybridRecord) : Prop :=
  l.Pairwise (fun a b => b.score < a.score ∨ (a.score = b.score ∧ a.movieId ≤ b.movieId))

/-- Catalog fixture for the ranking claim: id `5`, popularity-score
ingredients giving a popularity fallback score of `0.4`. -/
def c7MovieA : Movie :=
  ⟨5, [], [], [], none, none, 5, 0, 50⟩

/-- Catalog fixture for the ranking claim: id `3`, identical statistics to
`c7MovieA` (hence an exact score tie). -/
def c7MovieB : Movie :=
  ⟨3, [], [], [], none, none, 5, 0, 50⟩

/-- Options fixture for the ranking claim: two results, no exclusions, no
minimum score, diversity skipped, no explanations. -/
def c7Opts : RecOptions :=
  ⟨2, false, false, 0, 0, false⟩

/-- All four strategy slots of a fusion entry lie in `[0,1]`. -/
def ScoresBounded01 (e : FusionEntry) : Prop :=
  0 ≤ e.contentScore ∧ e.contentScore ≤ 1 ∧
  0 ≤ e.collaborativeScore ∧ e.collaborativeScore ≤ 1 ∧
  0 ≤ e.sequenceScore ∧ e.sequenceScore ≤ 1 ∧
  0 ≤ e.ruleScore ∧ e.ruleScore ≤ 1

/-- Catalog-side hypotheses under which popularity scores stay in `[0,1]`:
popularity in `[0,100]`, averageRating in `[0,10]`, and ratingCount at most
`9999` (the amendment forced by the `log` numerator overtaking
`log 10000`). -/
def MovieStatsBounded (m : Movie) : Prop :=
  0 ≤ m.popularity ∧ m.popularity ≤ 100 ∧
  0 ≤ m.averageRating ∧ m.averageRating ≤ 10 ∧ m.ratingCount ≤ 9999

/-!
Helper lemmas shared by several claims.
-/

/-- The falsy default is the identity when the default is `0`. -/
theorem jsOr_zero (x : ℚ) : jsOr x 0 = x := by
  unfold jsOr
  split <;> simp_all

/-- The source catalog is empty, so `getAvailableMovies` returns the empty
list on every input. -/
theorem getAvailableMovies_eq_nil (excludeRated excludeWatchlist : Bool)
    (ratedIds watchlistIds : List ℕ) :
    getAvailableMovies excludeRated excludeWatchlist ratedIds watchlistIds = [] := by
  unfold getAvailableMovies
  split <;> simp

/-- Explicit form of `normalizeWeights` when all components are nonnegative
and their sum is positive: the zero clamp and the zero-sum default are both
inert and each component is just divided by the sum. -/
theorem normalizeWeights_eq (w : Weights) (hc : 0 ≤ w.content) (hl : 0 ≤ w.collaborative)
    (hs : 0 ≤ w.sequence) (hr : 0 ≤ w.rule)
    (hpos : 0 < w.content + w.collaborative + w.sequence + w.rule) :
    normalizeWeights w =
      ⟨w.content / (w.content + w.collaborative + w.sequence + w.rule),
        w.collaborative / (w.content + w.collaborative + w.sequence + w.rule),
        w.sequence / (w.content + w.collaborative + w.sequence + w.rule),
        w.rule / (w.content + w.collaborative + w.sequence + w.rule)⟩ := by
  have hne : w.content + w.collaborative + w.sequence + w.rule ≠ 0 := ne_of_gt hpos
  unfold normalizeWeights jsOr
  rw [if_neg hne]
  simp only [Weights.mk.injEq]
  exact ⟨max_eq_right (div_nonneg hc hpos.le), max_eq_right (div_nonneg hl hpos.le),
    max_eq_right (div_nonneg hs hpos.le), max_eq_right (div_nonneg hr hpos.le)⟩

/-- Tier-wise closed form of `calculateWeights` for profiles with
nonnegative `sessionDepth` and `recencyScore`. -/
theorem calculateWeights_closed_form (n : ℕ) (d r : ℚ) (hd0 : 0 ≤ d) (hr0 : 0 ≤ r) :
    calculateWeights (profileOf n d r) =
      if n < 5 then
        ⟨0.4 / (1 + r * 0.1), 0.1 / (1 + r * 0.1), (0.2 + r * 0.1) / (1 + r * 0.1),
          0.3 / (1 + r * 0.1)⟩
      else if n < 25 then
        ⟨0.35 / (1 + d * 0.05), 0.25 / (1 + d * 0.05), (0.25 + d * 0.05) / (1 + d * 0.05),
          0.15 / (1 + d * 0.05)⟩
      else
        ⟨0.25 / (1 + r * 0.1), 0.45 / (1 + r * 0.1), (0.2 + r * 0.1) / (1 + r * 0.1),
          0.1 / (1 + r * 0.1)⟩ := by
  simp only [calculateWeights, profileOf]
  split_ifs with h1 h2
  · rw [normalizeWeights_eq _ (by norm_num) (by norm_num) (by nlinarith) (by norm_num)
      (by nlinarith)]
    simp only [Weights.mk.injEq]
    refine ⟨by ring, by ring, by ring, by ring⟩
  · rw [normalizeWeights_eq _ (by norm_num) (by norm_num) (by nlinarith) (by norm_num)
      (by nlinarith)]
    simp only [Weights.mk.injEq]
    refine ⟨by ring, by ring, by ring, by ring⟩
  · rw [normalizeWeights_eq _ (by norm_num) (by norm_num) (by nlinarith) (by norm_num)
      (by nlinarith)]
    simp only [Weights.mk.injEq]
    refine ⟨by ring, by ring, by ring, by ring⟩

/-!
Claim theorems.
-/

/-- C1: on a cache miss `generateRecommendations` returns the empty list and
performs no cache write, because `getAvailableMovies` returns an empty
candidate list unconditionally (its `allMovies` source is the empty list)
and the orchestrator returns `[]` whenever the candidate list is empty. -/
theorem claim1_cache_miss_returns_empty :
    (∀ (excludeRated excludeWatchlist : Bool) (ratedIds watchlistIds : List ℕ),
      getAvailableMovies excludeRated excludeWatchlist ratedIds watchlistIds = []) ∧
    (∀ (L : ℕ → ℚ) (recencyW : ℤ → ℕ → ℚ) (userProfile : UserProfile)
      (predictions : List Prediction) (userRatings : List UAction)
      (ratedIds watchlistIds : List ℕ) (opts : RecOptions),
      generateRecommendations L recencyW none userProfile predictions userRatings
        ratedIds watchlistIds opts = ([], none)) := by
  refine ⟨getAvailableMovies_eq_nil, ?_⟩
  intro L recencyW userProfile predictions userRatings ratedIds watchlistIds opts
  unfold generateRecommendations
  rw [getAvailableMovies_eq_nil]
  simp

/-- Weight simplex property of `calculateWeights`, shared by several
claims: nonnegative components summing to `1`. -/
theorem calculateWeights_simplex (p : UserProfile)
    (hd0 : 0 ≤ p.sessionDepth) (hr0 : 0 ≤ p.recencyScore) :
    0 ≤ (calculateWeights p).content ∧ 0 ≤ (calculateWeights p).collaborative ∧
    0 ≤ (calculateWeights p).sequence ∧ 0 ≤ (calculateWeights p).rule ∧
    (calculateWeights p).content + (calculateWeights p).collaborative +
      (calculateWeights p).sequence + (calculateWeights p).rule = 1 := by
  simp only [calculateWeights]
  split_ifs with h1 h2
  · rw [normalizeWeights_eq _ (by norm_num) (by norm_num) (by nlinarith) (by norm_num)
      (by nlinarith)]
    refine ⟨div_nonneg (by norm_num) (by nlinarith), div_nonneg (by norm_num) (by nlinarith),
      div_nonneg (by nlinarith) (by nlinarith), div_nonneg (by norm_num) (by nlinarith), ?_⟩
    rw [div_add_div_same, div_add_div_same, div_add_div_same]
    exact div_self (by nlinarith)
  · rw [normalizeWeights_eq _ (by norm_num) (by norm_num) (by nlinarith) (by norm_num)
      (by nlinarith)]
    refine ⟨div_nonneg (by norm_num) (by nlinarith), div_nonneg (by norm_num) (by nlinarith),
      div_nonneg (by nlinarith) (by nlinarith), div_nonneg (by norm_num) (by nlinarith), ?_⟩
    rw [div_add_div_same, div_add_div_same, div_add_div_same]
    exact div_self (by nlinarith)
  · rw [normalizeWeights_eq _ (by norm_num) (by norm_num) (by nlinarith) (by norm_num)
      (by nlinarith)]
    refine ⟨div_nonneg (by norm_num) (by nlinarith), div_nonneg (by norm_num) (by nlinarith),
      div_nonneg (by nlinarith) (by nlinarith), div_nonneg (by norm_num) (by nlinarith), ?_⟩
    rw [div_add_div_same, div_add_div_same, div_add_div_same]
    exact div_self (by nlinarith)

/-- C5: for every profile with `sessionDepth` and `recencyScore` in
`[0,1]`, the weight vector returned by `calculateWeights` has all four
components nonnegative and summing to `1` (tier base weights plus bonuses,
clamped at `0` and divided by their sum, the sum treated as `1` if zero). -/
theorem claim5_weight_simplex (p : UserProfile)
    (hd0 : 0 ≤ p.sessionDepth) (hd1 : p.sessionDepth ≤ 1)
    (hr0 : 0 ≤ p.recencyScore) (hr1 : p.recencyScore ≤ 1) :
    0 ≤ (calculateWeights p).content ∧ 0 ≤ (calculateWeights p).collaborative ∧
    0 ≤ (calculateWeights p).sequence ∧ 0 ≤ (calculateWeights p).rule ∧
    (calculateWeights p).content + (calculateWeights p).collaborative +
      (calculateWeights p).sequence + (calculateWeights p).rule = 1 :=
  calculateWeights_simplex p hd0 hr0

/-- Witness for C5 at the concrete profile with `ratingCount = 3`,
`sessionDepth = 1/2`, `recencyScore = 1/4`. -/
theorem claim5_witness :
    0 ≤ (profileOf 3 (1/2) (1/4)).sessionDepth ∧
    (calculateWeights (profileOf 3 (1/2) (1/4))).content +
      (calculateWeights (profileOf 3 (1/2) (1/4))).collaborative +
      (calculateWeights (profileOf 3 (1/2) (1/4))).sequence +
      (calculateWeights (profileOf 3 (1/2) (1/4))).rule = 1 :=
  ⟨by norm_num [profileOf],
    (claim5_weight_simplex (profileOf 3 (1/2) (1/4)) (by norm_num [profileOf])
      (by norm_num [profileOf]) (by norm_num [profileOf]) (by norm_num [profileOf])).2.2.2.2⟩

/-- C6: for fixed `sessionDepth` and `recencyScore` in `[0,1]`, the
normalized collaborative weight of `calculateWeights` is non-decreasing in
`ratingCount` across the three maturity tiers, and the normalized rule
weight is non-increasing. -/
theorem claim6_weight_maturity (d r : ℚ) (hd0 : 0 ≤ d) (hd1 : d ≤ 1)
    (hr0 : 0 ≤ r) (hr1 : r ≤ 1) (rc rc' : ℕ) (hrc : rc ≤ rc') :
    (calculateWeights (profileOf rc d r)).collaborative ≤
      (calculateWeights (profileOf rc' d r)).collaborative ∧
    (calculateWeights (profileOf rc' d r)).rule ≤ (calculateWeights (profileOf rc d r)).rule := by
  rw [calculateWeights_closed_form rc d r hd0 hr0, calculateWeights_closed_form rc' d r hd0 hr0]
  have hden1 : (0:ℚ) < 1 + r * 0.1 := by nlinarith
  have hden2 : (0:ℚ) < 1 + d * 0.05 := by nlinarith
  by_cases h1' : rc' < 5
  · have h1 : rc < 5 := lt_of_le_of_lt hrc h1'
    rw [if_pos h1, if_pos h1']
    exact ⟨le_refl _, le_refl _⟩
  · by_cases h2' : rc' < 25
    · rw [if_neg h1', if_pos h2']
      by_cases h1 : rc < 5
      · rw [if_pos h1]
        constructor
        · rw [div_le_div_iff hden1 hden2]
          nlinarith
        · rw [div_le_div_iff hden2 hden1]
          nlinarith
      · have h2 : rc < 25 := lt_of_le_of_lt hrc h2'
        rw [if_neg h1, if_pos h2]
        exact ⟨le_refl _, le_refl _⟩
    · rw [if_neg h1', if_neg h2']
      by_cases h1 : rc < 5
      · rw [if_pos h1]
        constructor
        · rw [div_le_div_iff hden1 hden1]
          nlinarith
        · rw [div_le_div_iff hden1 hden1]
          nlinarith
      · by_cases h2 : rc < 25
        · rw [if_neg h1, if_pos h2]
          constructor
          · rw [div_le_div_iff hden2 hden1]
            nlinarith
          · rw [div_le_div_iff hden1 hden2]
            nlinarith
        · rw [if_neg h1, if_neg h2]
          exact ⟨le_refl _, le_refl _⟩

/-- Witness for C6 at `ratingCount` 3 versus 30 with `sessionDepth = 1/2`,
`recencyScore = 1/2`. -/
theorem claim6_witness :
    (3:ℕ) ≤ 30 ∧
    (calculateWeights (profileOf 3 (1/2) (1/2))).collaborative ≤
      (calculateWeights (profileOf 30 (1/2) (1/2))).collaborative :=
  ⟨by norm_num,
    (claim6_weight_maturity (1/2) (1/2) (by norm_num) (by norm_num) (by norm_num) (by norm_num)
      3 30 (by norm_num)).1⟩

/-- C10 counterexample: the claim says the boost for a `rate` action is
`value/10` for every rating value in `[0,10]` including `0`, but the source
computes `(value || 5)/10`, so a rating of `0` is boosted as `0.5`, not
`0`. -/
theorem claim10_counterexample :
    actionTypeBoost "rate" 0 = 1/2 ∧ (1/2 : ℚ) ≠ 0 / 10 := by
  constructor
  · simp only [actionTypeBoost, jsOr, String.reduceEq, reduceIte]
    norm_num
  · norm_num

/-- C10 amended: `actionTypeBoost` returns `min(1.2, value/60)` for
`watchTime`, `value/10` for `rate` with nonzero value but `0.5` at value
`0` (the `value || 5` default treats the falsy rating `0` as a missing
value), `0.7` for `add_watchlist`, `0.5` for `view`, and `0.4` for every
other action type. -/
theorem claim10_amended :
    (∀ v : ℚ, actionTypeBoost "watchTime" v = min 1.2 (v / 60)) ∧
    (∀ v : ℚ, v ≠ 0 → actionTypeBoost "rate" v = v / 10) ∧
    actionTypeBoost "rate" 0 = 0.5 ∧
    (∀ v : ℚ, actionTypeBoost "add_watchlist" v = 0.7) ∧
    (∀ v : ℚ, actionTypeBoost "view" v = 0.5) ∧
    (∀ (t : String) (v : ℚ), t ≠ "watchTime" → t ≠ "rate" → t ≠ "add_watchlist" → t ≠ "view" →
      actionTypeBoost t v = 0.4) := by
  refine ⟨?_, ?_, ?_, ?_, ?_, ?_⟩
  · intro v
    simp [actionTypeBoost, jsOr_zero, String.reduceEq]
  · intro v hv
    simp [actionTypeBoost, jsOr, hv, String.reduceEq]
  · simp only [actionTypeBoost, jsOr, String.reduceEq, reduceIte]
    norm_num
  · intro v
    simp [actionTypeBoost, String.reduceEq]
  · intro v
    simp [actionTypeBoost, String.reduceEq]
  · intro t v h1 h2 h3 h4
    simp [actionTypeBoost, h1, h2, h3, h4]

/-- Witness for C10 amended at a nonzero rating and a `click` action. -/
theorem claim10_witness :
    (7:ℚ) ≠ 0 ∧ actionTypeBoost "rate" 7 = 7 / 10 ∧ actionTypeBoost "click" 7 = 0.4 :=
  ⟨by norm_num, claim10_amended.2.1 7 (by norm_num),
    claim10_amended.2.2.2.2.2 "click" 7 (by decide) (by decide) (by decide) (by decide)⟩

/-- Bounds of the shared `normalizeScore` numeric: its value always lies in
`[0,1]`. -/
theorem normalizeScore_bounds (x : ℚ) : 0 ≤ normalizeScore x ∧ normalizeScore x ≤ 1 := by
  unfold normalizeScore
  split_ifs with h1 h2
  · norm_num
  · norm_num
  · push_neg at h1 h2
    constructor
    · apply div_nonneg _ (by norm_num)
      linarith
    · rw [div_le_one (by norm_num)]
      linarith

/-- The denominator `Math.log(10000)` is positive. -/
theorem log10000_pos : (0:ℝ) < Real.log 10000 :=
  Real.log_pos (by norm_num)

/-- The `Math.log` count term is nonnegative for every rating count. -/
theorem logCountScore_nonneg (n : ℕ) : 0 ≤ logCountScore n := by
  unfold logCountScore
  apply div_nonneg _ log10000_pos.le
  apply Real.log_nonneg
  have : (0:ℝ) ≤ (n:ℝ) := Nat.cast_nonneg n
  linarith

/-- The `Math.log` count term stays at most `1` exactly while
`ratingCount + 1 ≤ 10000`. -/
theorem logCountScore_le_one (n : ℕ) (h : n ≤ 9999) : logCountScore n ≤ 1 := by
  unfold logCountScore
  rw [div_le_one log10000_pos]
  have hle : ((n:ℝ) + 1) ≤ 10000 := by
    have : (n:ℝ) ≤ 9999 := by exact_mod_cast h
    linarith
  calc Real.log ((n:ℝ) + 1) ≤ Real.log 10000 := by
        apply (Real.log_le_log_iff (by positivity) (by norm_num)).mpr hle
    _ = Real.log 10000 := rfl

/-- Bounds of the exact popularity score under the amended hypotheses. -/
theorem calculatePopularityScoreR_bounds (p a : ℝ) (rc : ℕ) (hp0 : 0 ≤ p) (hp1 : p ≤ 100)
    (ha0 : 0 ≤ a) (ha1 : a ≤ 10) (hrc : rc ≤ 9999) :
    0 ≤ calculatePopularityScoreR p a rc ∧ calculatePopularityScoreR p a rc ≤ 1 := by
  have h0 := logCountScore_nonneg rc
  have h1 := logCountScore_le_one rc hrc
  unfold calculatePopularityScoreR
  constructor <;> nlinarith

/-- Bounds of the pipeline popularity score, given that the abstract log
term is bounded like the real one. -/
theorem calculatePopularityScore_bounds (L : ℕ → ℚ) (m : Movie)
    (hL0 : 0 ≤ L m.ratingCount) (hL1 : L m.ratingCount ≤ 1) (hm : MovieStatsBounded m) :
    0 ≤ calculatePopularityScore L m ∧ calculatePopularityScore L m ≤ 1 := by
  obtain ⟨h1, h2, h3, h4, _⟩ := hm
  simp only [calculatePopularityScore, jsOr_zero]
  constructor <;> nlinarith

/-- Every popularity-fallback record is scored in `[0,1]` under the
catalog-side hypotheses. -/
theorem popularityFallback_bounds (L : ℕ → ℚ) (movies : List Movie) (src : String)
    (hL0 : ∀ n, 0 ≤ L n) (hL1 : ∀ n, n ≤ 9999 → L n ≤ 1)
    (hb : ∀ m ∈ movies, MovieStatsBounded m) :
    ∀ r ∈ popularityFallback L movies src, 0 ≤ r.score ∧ r.score ≤ 1 := by
  intro r hr
  simp only [popularityFallback, List.mem_map] at hr
  obtain ⟨m, hm, rfl⟩ := hr
  exact calculatePopularityScore_bounds L m (hL0 _)
    (hL1 _ (hb m hm).2.2.2.2) (hb m hm)

/-- The collaborative fallback score is `0` or a normalized score, hence in
`[0,1]`. -/
theorem calculateCollaborativeScore_bounds (movieId : ℕ) (su : List SimilarUser) :
    0 ≤ calculateCollaborativeScore movieId su ∧ calculateCollaborativeScore movieId su ≤ 1 := by
  unfold calculateCollaborativeScore
  by_cases h1 : su.length = 0
  · rw [if_pos h1]
    norm_num
  · rw [if_neg h1]
    dsimp only
    split
    · exact normalizeScore_bounds _
    · norm_num

/-- The content similarity is a normalized score, hence in `[0,1]`. -/
theorem calculateContentSimilarity_bounds (m : Movie) (p : Preferences) :
    0 ≤ calculateContentSimilarity m p ∧ calculateContentSimilarity m p ≤ 1 := by
  unfold calculateContentSimilarity
  exact normalizeScore_bounds _

/-- The session similarity is `0.4` or a normalized score, hence in
`[0,1]`. -/
theorem calculateSessionSimilarity_bounds (m : Movie) (s : SessionSignals) :
    0 ≤ calculateSessionSimilarity m s ∧ calculateSessionSimilarity m s ≤ 1 := by
  unfold calculateSessionSimilarity
  split_ifs with h1
  · norm_num
  · exact normalizeScore_bounds _

/-- The rule score is a normalized score, hence in `[0,1]`. -/
theorem calculateRuleScore_bounds (m : Movie) (rp : RulePrefs) :
    0 ≤ calculateRuleScore m rp ∧ calculateRuleScore m rp ≤ 1 := by
  unfold calculateRuleScore
  exact normalizeScore_bounds _

/-- Content scorer records are all scored in `[0,1]`. -/
theorem contentBasedRecommendation_bounds (L : ℕ → ℚ) (movies : List Movie) (p : UserProfile)
    (hL0 : ∀ n, 0 ≤ L n) (hL1 : ∀ n, n ≤ 9999 → L n ≤ 1)
    (hb : ∀ m ∈ movies, MovieStatsBounded m) :
    ∀ r ∈ contentBasedRecommendation L movies p, 0 ≤ r.score ∧ r.score ≤ 1 := by
  intro r hr
  unfold contentBasedRecommendation at hr
  cases hp : p.preferences with
  | none =>
    rw [hp] at hr
    dsimp only at hr
    exact popularityFallback_bounds L movies _ hL0 hL1 hb r hr
  | some prefs =>
    rw [hp] at hr
    dsimp only at hr
    by_cases h0 : p.ratingCount = 0
    · rw [if_pos h0] at hr
      exact popularityFallback_bounds L movies _ hL0 hL1 hb r hr
    · rw [if_neg h0] at hr
      simp only [List.mem_map] at hr
      obtain ⟨m, _, rfl⟩ := hr
      exact calculateContentSimilarity_bounds m prefs

/-- Collaborative scorer records are all scored in `[0,1]`. -/
theorem collaborativeFiltering_bounds (L : ℕ → ℚ) (predictions : List Prediction)
    (userRatings : List UAction) (movies : List Movie)
    (hL0 : ∀ n, 0 ≤ L n) (hL1 : ∀ n, n ≤ 9999 → L n ≤ 1)
    (hb : ∀ m ∈ movies, MovieStatsBounded m) :
    ∀ r ∈ collaborativeFiltering L predictions userRatings movies,
      0 ≤ r.score ∧ r.score ≤ 1 := by
  intro r hr
  unfold collaborativeFiltering at hr
  by_cases hp : predictions.length = 0
  · rw [if_pos hp] at hr
    simp only [userBasedCollaborativeFiltering] at hr
    by_cases hs : (findSimilarUsers userRatings).length = 0
    · rw [if_pos hs] at hr
      exact popularityFallback_bounds L movies _ hL0 hL1 hb r hr
    · rw [if_neg hs] at hr
      simp only [List.mem_map] at hr
      obtain ⟨m, _, rfl⟩ := hr
      exact calculateCollaborativeScore_bounds m.id (findSimilarUsers userRatings)
  · rw [if_neg hp] at hr
    simp only [List.mem_map] at hr
    obtain ⟨pred, _, rfl⟩ := hr
    exact normalizeScore_bounds pred.score

/-- Sequence scorer records are all scored in `[0,1]`. -/
theorem sequenceBasedRecommendation_bounds (L : ℕ → ℚ) (recencyW : ℤ → ℕ → ℚ)
    (movies : List Movie) (p : UserProfile)
    (hL0 : ∀ n, 0 ≤ L n) (hL1 : ∀ n, n ≤ 9999 → L n ≤ 1)
    (hb : ∀ m ∈ movies, MovieStatsBounded m) :
    ∀ r ∈ sequenceBasedRecommendation L recencyW movies p, 0 ≤ r.score ∧ r.score ≤ 1 := by
  intro r hr
  simp only [sequenceBasedRecommendation] at hr
  by_cases h0 : p.recentActions.length = 0
  · rw [if_pos h0] at hr
    exact popularityFallback_bounds L movies _ hL0 hL1 hb r hr
  · rw [if_neg h0] at hr
    simp only [List.mem_map] at hr
    obtain ⟨m, _, rfl⟩ := hr
    exact calculateSessionSimilarity_bounds m _

/-- Rule scorer records are all scored in `[0,1]`. -/
theorem ruleBasedRecommendation_bounds (L : ℕ → ℚ) (movies : List Movie) (p : UserProfile)
    (hL0 : ∀ n, 0 ≤ L n) (hL1 : ∀ n, n ≤ 9999 → L n ≤ 1)
    (hb : ∀ m ∈ movies, MovieStatsBounded m) :
    ∀ r ∈ ruleBasedRecommendation L movies p, 0 ≤ r.score ∧ r.score ≤ 1 := by
  intro r hr
  unfold ruleBasedRecommendation at hr
  cases hp : extractRulePreferences p with
  | none =>
    rw [hp] at hr
    dsimp only at hr
    exact popularityFallback_bounds L movies _ hL0 hL1 hb r hr
  | some rp =>
    rw [hp] at hr
    dsimp only at hr
    simp only [List.mem_map] at hr
    obtain ⟨m, _, rfl⟩ := hr
    exact calculateRuleScore_bounds m rp

/-- `ingestOne` preserves boundedness of all strategy slots when the
ingested record's score is bounded. -/
theorem ingestOne_bounded (ie : Bool) (k : StratKey) (m : List FusionEntry) (item : ScoreRecord)
    (hm : ∀ e ∈ m, ScoresBounded01 e) (hitem : 0 ≤ item.score ∧ item.score ≤ 1) :
    ∀ e ∈ ingestOne ie k m item, ScoresBounded01 e := by
  intro e he
  unfold ingestOne at he
  cases hmv : item.movie with
  | none =>
    rw [hmv] at he
    dsimp only at he
    exact hm e he
  | some mv =>
    rw [hmv] at he
    dsimp only at he
    simp only [List.mem_map] at he
    obtain ⟨e0, he0, rfl⟩ := he
    have he0' : ScoresBounded01 e0 := by
      by_cases hany : m.any (fun x => x.movieId == item.movieId)
      · rw [if_pos hany] at he0
        exact hm e0 he0
      · rw [if_neg hany] at he0
        rcases List.mem_append.mp he0 with h | h
        · exact hm e0 h
        · simp only [List.mem_singleton] at h
          subst h
          unfold ScoresBounded01
          norm_num
    have hsc : 0 ≤ jsOr item.score 0 ∧ jsOr item.score 0 ≤ 1 := by
      rw [jsOr_zero]
      exact hitem
    unfold ScoresBounded01 at he0'
    obtain ⟨a1, a2, a3, a4, a5, a6, a7, a8⟩ := he0'
    by_cases hid : e0.movieId == item.movieId
    · rw [if_pos hid]
      cases k
      · exact ⟨hsc.1, hsc.2, a3, a4, a5, a6, a7, a8⟩
      · exact ⟨a1, a2, hsc.1, hsc.2, a5, a6, a7, a8⟩
      · exact ⟨a1, a2, a3, a4, hsc.1, hsc.2, a7, a8⟩
      · exact ⟨a1, a2, a3, a4, a5, a6, hsc.1, hsc.2⟩
    · rw [if_neg hid]
      exact ⟨a1, a2, a3, a4, a5, a6, a7, a8⟩

/-- `ingestScores` preserves boundedness of all strategy slots. -/
theorem ingestScores_bounded (ie : Bool) (k : StratKey) (scores : List ScoreRecord) :
    ∀ (m : List FusionEntry), (∀ e ∈ m, ScoresBounded01 e) →
    (∀ s ∈ scores, 0 ≤ s.score ∧ s.score ≤ 1) →
    ∀ e ∈ ingestScores ie k m scores, ScoresBounded01 e := by
  induction scores with
  | nil =>
    intro m hm _ e he
    simpa only [ingestScores, List.foldl_nil] using hm e he
  | cons s rest ih =>
    intro m hm hs e he
    simp only [ingestScores, List.foldl_cons] at he
    exact ih (ingestOne ie k m s)
      (ingestOne_bounded ie k m s hm (hs s (by simp)))
      (fun x hx => hs x (by simp [hx])) e he

/-- Every hybrid record produced by `combineScores` from `[0,1]`-bounded
strategy outputs and a weight simplex has its score in `[0,1]`, and the
sub-score slots are bounded as well. -/
theorem combineScores_bounds (cs col seq rul : List ScoreRecord) (w : Weights) (ie : Bool)
    (hw1 : 0 ≤ w.content) (hw2 : 0 ≤ w.collaborative) (hw3 : 0 ≤ w.sequence) (hw4 : 0 ≤ w.rule)
    (hw5 : w.content + w.collaborative + w.sequence + w.rule = 1)
    (hcs : ∀ s ∈ cs, 0 ≤ s.score ∧ s.score ≤ 1)
    (hcol : ∀ s ∈ col, 0 ≤ s.score ∧ s.score ≤ 1)
    (hseq : ∀ s ∈ seq, 0 ≤ s.score ∧ s.score ≤ 1)
    (hrul : ∀ s ∈ rul, 0 ≤ s.score ∧ s.score ≤ 1) :
    ∀ r ∈ combineScores cs col seq rul w ie, 0 ≤ r.score ∧ r.score ≤ 1 := by
  intro r hr
  simp only [combineScores, List.mem_map] at hr
  obtain ⟨e, he, rfl⟩ := hr
  have hb : ScoresBounded01 e := by
    refine ingestScores_bounded ie .rule rul _ ?_ hrul e he
    intro x hx
    refine ingestScores_bounded ie .sequence seq _ ?_ hseq x hx
    intro y hy
    refine ingestScores_bounded ie .collaborative col _ ?_ hcol y hy
    intro z hz
    exact ingestScores_bounded ie .content cs [] (by simp) hcs z hz
  unfold ScoresBounded01 at hb
  obtain ⟨b1, b2, b3, b4, b5, b6, b7, b8⟩ := hb
  dsimp only
  constructor
  · have m1 := mul_nonneg b1 hw1
    have m2 := mul_nonneg b3 hw2
    have m3 := mul_nonneg b5 hw3
    have m4 := mul_nonneg b7 hw4
    linarith
  · have m1 := mul_le_of_le_one_left hw1 b2
    have m2 := mul_le_of_le_one_left hw2 b4
    have m3 := mul_le_of_le_one_left hw3 b6
    have m4 := mul_le_of_le_one_left hw4 b8
    linarith

/-- C2 counterexample: the per-strategy score bound fails on the
popularity-fallback paths.  At popularity `100`, averageRating `10` and
ratingCount `10000` the exact popularity score exceeds `1`, because
`log(10001)/log(10000) > 1` while the claim admits every
`ratingCount ≥ 0`. -/
theorem claim2_counterexample : 1 < calculatePopularityScoreR 100 10 10000 := by
  have h1 : (1:ℝ) < logCountScore 10000 := by
    unfold logCountScore
    rw [one_lt_div log10000_pos]
    apply Real.log_lt_log (by norm_num)
    push_cast
    norm_num
  unfold calculatePopularityScoreR
  nlinarith

/-- C2 amended: `normalizeScore` always lands in `[0,1]`; the popularity
score lands in `[0,1]` once `ratingCount ≤ 9999` is added to the claimed
`popularity ∈ [0,100]` and `averageRating ∈ [0,10]` hypotheses; under the
same catalog bounds (and a log term bounded like the real logarithm's) all
four scorers produce scores in `[0,1]`; and every `HybridRecord.score` of
`combineScores` under `calculateWeights` weights lies in `[0,1]` when the
ingested strategy scores do. -/
theorem claim2_amended :
    (∀ x : ℚ, 0 ≤ normalizeScore x ∧ normalizeScore x ≤ 1) ∧
    (∀ (p a : ℝ) (rc : ℕ), 0 ≤ p → p ≤ 100 → 0 ≤ a → a ≤ 10 → rc ≤ 9999 →
      0 ≤ calculatePopularityScoreR p a rc ∧ calculatePopularityScoreR p a rc ≤ 1) ∧
    (∀ (L : ℕ → ℚ), (∀ n, 0 ≤ L n) → (∀ n, n ≤ 9999 → L n ≤ 1) →
      ∀ (movies : List Movie), (∀ m ∈ movies, MovieStatsBounded m) →
      ∀ (profile : UserProfile) (predictions : List Prediction)
        (userRatings : List UAction) (recencyW : ℤ → ℕ → ℚ),
      (∀ r ∈ contentBasedRecommendation L movies profile, 0 ≤ r.score ∧ r.score ≤ 1) ∧
      (∀ r ∈ collaborativeFiltering L predictions userRatings movies,
        0 ≤ r.score ∧ r.score ≤ 1) ∧
      (∀ r ∈ sequenceBasedRecommendation L recencyW movies profile,
        0 ≤ r.score ∧ r.score ≤ 1) ∧
      (∀ r ∈ ruleBasedRecommendation L movies profile, 0 ≤ r.score ∧ r.score ≤ 1)) ∧
    (∀ (cs col seq rul : List ScoreRecord) (profile : UserProfile) (ie : Bool),
      0 ≤ profile.sessionDepth → 0 ≤ profile.recencyScore →
      (∀ s ∈ cs, 0 ≤ s.score ∧ s.score ≤ 1) → (∀ s ∈ col, 0 ≤ s.score ∧ s.score ≤ 1) →
      (∀ s ∈ seq, 0 ≤ s.score ∧ s.score ≤ 1) → (∀ s ∈ rul, 0 ≤ s.score ∧ s.score ≤ 1) →
      ∀ r ∈ combineScores cs col seq rul (calculateWeights profile) ie,
        0 ≤ r.score ∧ r.score ≤ 1) := by
  refine ⟨normalizeScore_bounds, ?_, ?_, ?_⟩
  · intro p a rc hp0 hp1 ha0 ha1 hrc
    exact calculatePopularityScoreR_bounds p a rc hp0 hp1 ha0 ha1 hrc
  · intro L hL0 hL1 movies hb profile predictions userRatings recencyW
    exact ⟨contentBasedRecommendation_bounds L movies profile hL0 hL1 hb,
      collaborativeFiltering_bounds L predictions userRatings movies hL0 hL1 hb,
      sequenceBasedRecommendation_bounds L recencyW movies profile hL0 hL1 hb,
      ruleBasedRecommendation_bounds L movies profile hL0 hL1 hb⟩
  · intro cs col seq rul profile ie hd0 hr0 hcs hcol hseq hrul
    obtain ⟨w1, w2, w3, w4, w5⟩ := calculateWeights_simplex profile hd0 hr0
    exact combineScores_bounds cs col seq rul (calculateWeights profile) ie
      w1 w2 w3 w4 w5 hcs hcol hseq hrul

/-- Witness for C2 amended: the popularity bound at popularity `50`,
rating `5`, ratingCount `0`, and the `normalizeScore` bound at `5.5`. -/
theorem claim2_witness :
    (0:ℝ) ≤ 50 ∧
    (0 ≤ calculatePopularityScoreR 50 5 0 ∧ calculatePopularityScoreR 50 5 0 ≤ 1) ∧
    (0 ≤ normalizeScore 5.5 ∧ normalizeScore 5.5 ≤ 1) :=
  ⟨by norm_num,
    claim2_amended.2.1 50 5 0 (by norm_num) (by norm_num) (by norm_num) (by norm_num)
      (by norm_num),
    claim2_amended.1 5.5⟩

/-- Reading a strategy slot after writing another one is unchanged; writing
the same one returns the written value. -/
theorem getStrat_setStrat (k k' : StratKey) (v : ℚ) (e : FusionEntry) :
    getStrat k' (setStrat k v e) = if k = k' then v else getStrat k' e := by
  cases k <;> cases k' <;> simp [getStrat, setStrat]

/-- `ingestOne` with strategy `k` keeps slot `k'` of entries with a given
movieId at zero, provided the ingested record does not target that movieId
when `k = k'`. -/
theorem ingestOne_slot_zero (ie : Bool) (k k' : StratKey) (m : List FusionEntry)
    (item : ScoreRecord) (mid : ℕ)
    (hm : ∀ e ∈ m, e.movieId = mid → getStrat k' e = 0)
    (hitem : k = k' → item.movie.isSome → item.movieId ≠ mid) :
    ∀ e ∈ ingestOne ie k m item, e.movieId = mid → getStrat k' e = 0 := by
  intro e he hemid
  unfold ingestOne at he
  cases hmv : item.movie with
  | none =>
    rw [hmv] at he
    dsimp only at he
    exact hm e he hemid
  | some mv =>
    rw [hmv] at he
    dsimp only at he
    simp only [List.mem_map] at he
    obtain ⟨e0, he0, rfl⟩ := he
    have he0' : e0.movieId = mid → getStrat k' e0 = 0 := by
      intro h0
      by_cases hany : m.any (fun x => x.movieId == item.movieId)
      · rw [if_pos hany] at he0
        exact hm e0 he0 h0
      · rw [if_neg hany] at he0
        rcases List.mem_append.mp he0 with h | h
        · exact hm e0 h h0
        · simp only [List.mem_singleton] at h
          subst h
          cases k' <;> rfl
    by_cases hid : e0.movieId == item.movieId
    · rw [if_pos hid] at hemid ⊢
      have hid' : e0.movieId = item.movieId := eq_of_beq hid
      by_cases hkk : k = k'
      · exfalso
        have : item.movieId = mid := by
          have : (setStrat k (jsOr item.score 0) e0).movieId = e0.movieId := by
            cases k <;> rfl
          rw [this] at hemid
          rw [← hid']
          exact hemid
        exact hitem hkk (by rw [hmv]; rfl) this
      · rw [getStrat_setStrat, if_neg hkk]
        apply he0'
        have : (setStrat k (jsOr item.score 0) e0).movieId = e0.movieId := by
          cases k <;> rfl
        rw [this] at hemid
        exact hemid
    · rw [if_neg hid] at hemid ⊢
      exact he0' hemid

/-- `ingestScores` with strategy `k` keeps slot `k'` of entries with a
given movieId at zero, provided no ingested record targets that movieId
when `k = k'`. -/
theorem ingestScores_slot_zero (ie : Bool) (k k' : StratKey) (scores : List ScoreRecord)
    (mid : ℕ) :
    ∀ (m : List FusionEntry), (∀ e ∈ m, e.movieId = mid → getStrat k' e = 0) →
    (k = k' → ∀ s ∈ scores, s.movie.isSome → s.movieId ≠ mid) →
    ∀ e ∈ ingestScores ie k m scores, e.movieId = mid → getStrat k' e = 0 := by
  induction scores with
  | nil =>
    intro m hm _ e he
    simpa only [ingestScores, List.foldl_nil] using hm e he
  | cons s rest ih =>
    intro m hm hs e he
    simp only [ingestScores, List.foldl_cons] at he
    refine ih (ingestOne ie k m s)
      (ingestOne_slot_zero ie k k' m s mid hm (fun hkk hsm => hs hkk s (by simp) hsm))
      (fun hkk x hx => hs hkk x (by simp [hx])) e he

/-- C3: every record produced by `combineScores` carries the linear fusion
score over its four sub-score slots; a strategy whose output never targets
the record's movieId leaves its slot at the default `0`; and on the S3
fixture (sub-scores 0.8, 0.6, 0.7, 0.5 with weights 0.4, 0.3, 0.2, 0.1 for
a single item) the hybrid score is exactly `0.69`. -/
theorem claim3_fusion_linearity :
    (∀ (cs col seq rul : List ScoreRecord) (w : Weights) (ie : Bool),
      ∀ r ∈ combineScores cs col seq rul w ie,
        r.score = r.contentScore * w.content + r.collaborativeScore * w.collaborative +
          r.sequenceScore * w.sequence + r.ruleScore * w.rule) ∧
    (∀ (cs col seq rul : List ScoreRecord) (w : Weights) (ie : Bool),
      ∀ r ∈ combineScores cs col seq rul w ie,
        ((∀ s ∈ cs, s.movie.isSome → s.movieId ≠ r.movieId) → r.contentScore = 0) ∧
        ((∀ s ∈ col, s.movie.isSome → s.movieId ≠ r.movieId) → r.collaborativeScore = 0) ∧
        ((∀ s ∈ seq, s.movie.isSome → s.movieId ≠ r.movieId) → r.sequenceScore = 0) ∧
        ((∀ s ∈ rul, s.movie.isSome → s.movieId ≠ r.movieId) → r.ruleScore = 0)) ∧
    (combineScores (s3Input 0.8) (s3Input 0.6) (s3Input 0.7) (s3Input 0.5) s3Weights false).map
      (fun r => r.score) = [0.69] := by
  refine ⟨?_, ?_, ?_⟩
  · intro cs col seq rul w ie r hr
    simp only [combineScores, List.mem_map] at hr
    obtain ⟨e, _, rfl⟩ := hr
    rfl
  · intro cs col seq rul w ie r hr
    simp only [combineScores, List.mem_map] at hr
    obtain ⟨e, he, rfl⟩ := hr
    dsimp only
    have base : ∀ x ∈ ([] : List FusionEntry), x.movieId = e.movieId → True := by simp
    refine ⟨?_, ?_, ?_, ?_⟩
    · intro hmiss
      have h4 := ingestScores_slot_zero ie .rule .content rul e.movieId _
        (ingestScores_slot_zero ie .sequence .content seq e.movieId _
          (ingestScores_slot_zero ie .collaborative .content col e.movieId _
            (ingestScores_slot_zero ie .content .content cs e.movieId [] (by simp)
              (fun _ s hs hsm => hmiss s hs hsm))
            (fun hkk => absurd hkk (by decide)))
          (fun hkk => absurd hkk (by decide)))
        (fun hkk => absurd hkk (by decide)) e he rfl
      exact h4
    · intro hmiss
      have h4 := ingestScores_slot_zero ie .rule .collaborative rul e.movieId _
        (ingestScores_slot_zero ie .sequence .collaborative seq e.movieId _
          (ingestScores_slot_zero ie .collaborative .collaborative col e.movieId _
            (ingestScores_slot_zero ie .content .collaborative cs e.movieId [] (by simp)
              (fun hkk => absurd hkk (by decide)))
            (fun _ s hs hsm => hmiss s hs hsm))
          (fun hkk => absurd hkk (by decide)))
        (fun hkk => absurd hkk (by decide)) e he rfl
      exact h4
    · intro hmiss
      have h4 := ingestScores_slot_zero ie .rule .sequence rul e.movieId _
        (ingestScores_slot_zero ie .sequence .sequence seq e.movieId _
          (ingestScores_slot_zero ie .collaborative .sequence col e.movieId _
            (ingestScores_slot_zero ie .content .sequence cs e.movieId [] (by simp)
              (fun hkk => absurd hkk (by decide)))
            (fun hkk => absurd hkk (by decide)))
          (fun _ s hs hsm => hmiss s hs hsm))
        (fun hkk => absurd hkk (by decide)) e he rfl
      exact h4
    · intro hmiss
      have h4 := ingestScores_slot_zero ie .rule .rule rul e.movieId _
        (ingestScores_slot_zero ie .sequence .rule seq e.movieId _
          (ingestScores_slot_zero ie .collaborative .rule col e.movieId _
            (ingestScores_slot_zero ie .content .rule cs e.movieId [] (by simp)
              (fun hkk => absurd hkk (by decide)))
            (fun hkk => absurd hkk (by decide)))
          (fun hkk => absurd hkk (by decide)))
        (fun _ s hs hsm => hmiss s hs hsm) e he rfl
      exact h4
  · simp only [combineScores, ingestScores, s3Input, s3Movie, s3Weights, List.foldl_cons,
      List.foldl_nil, ingestOne, List.any_nil, List.any_cons, List.map_cons, List.map_nil,
      setStrat, jsOr]
    norm_num

/-- Witness for C3 on the S3 fixture record. -/
theorem claim3_witness :
    (⟨1, s3Movie, 0.8, 0.6, 0.7, 0.5, none, 0.69, s3Weights, "hybrid"⟩ : HybridRecord) ∈
      combineScores (s3Input 0.8) (s3Input 0.6) (s3Input 0.7) (s3Input 0.5) s3Weights false ∧
    (0.69 : ℚ) = 0.8 * s3Weights.content + 0.6 * s3Weights.collaborative +
      0.7 * s3Weights.sequence + 0.5 * s3Weights.rule := by
  have hmem : (⟨1, s3Movie, 0.8, 0.6, 0.7, 0.5, none, 0.69, s3Weights, "hybrid"⟩ : HybridRecord) ∈
      combineScores (s3Input 0.8) (s3Input 0.6) (s3Input 0.7) (s3Input 0.5) s3Weights false := by
    simp only [combineScores, ingestScores, s3Input, s3Movie, s3Weights, List.foldl_cons,
      List.foldl_nil, ingestOne, List.any_nil, List.any_cons, List.map_cons, List.map_nil,
      setStrat, jsOr, List.mem_singleton, HybridRecord.mk.injEq]
    norm_num
  refine ⟨hmem, ?_⟩
  have h := claim3_fusion_linearity.1 (s3Input 0.8) (s3Input 0.6) (s3Input 0.7) (s3Input 0.5)
    s3Weights false _ hmem
  simpa [s3Weights] using h

/-- A nonnegative score only shrinks under the multiplicative overlap
penalty. -/
theorem score_penalty_le (s p dF : ℚ) (hs : 0 ≤ s) (hp : 0 ≤ p) (hdF : 0 ≤ dF) :
    s * (1 - p * dF) ≤ s := by
  nlinarith [mul_nonneg (mul_nonneg hs hp) hdF]

/-- The diversity walk preserves the movieId sequence (records are
rescored in place, never dropped or reordered). -/
theorem diversityWalk_ids (dF : ℚ) (l : List HybridRecord) :
    ∀ (g d : List String),
      (diversityWalk dF g d l).map (fun r => r.movieId) = l.map (fun r => r.movieId) := by
  induction l with
  | nil => intro g d; rfl
  | cons x rest ih =>
    intro g d
    simp only [diversityWalk, List.map_cons, List.cons.injEq]
    exact ⟨trivial, ih _ _⟩

/-- Every record output by the diversity walk is an input record rescored
by a factor at most `1` (for nonnegative input scores and a nonnegative
diversity factor). -/
theorem diversityWalk_le (dF : ℚ) (hdF : 0 ≤ dF) (l : List HybridRecord) :
    ∀ (g d : List String), (∀ r ∈ l, 0 ≤ r.score) →
      ∀ r ∈ diversityWalk dF g d l,
        ∃ r₀ ∈ l, r.movieId = r₀.movieId ∧ r.movie = r₀.movie ∧ r.score ≤ r₀.score := by
  induction l with
  | nil =>
    intro g d _ r hr
    simp [diversityWalk] at hr
  | cons x rest ih =>
    intro g d h0 r hr
    simp only [diversityWalk, List.mem_cons] at hr
    rcases hr with rfl | hr
    · refine ⟨x, by simp, rfl, rfl, ?_⟩
      have hx0 : 0 ≤ x.score := h0 x (by simp)
      apply score_penalty_le _ _ _ hx0 _ hdF
      split_ifs <;> norm_num
    · obtain ⟨r₀, hr₀, h⟩ := ih _ _ (fun y hy => h0 y (by simp [hy])) r hr
      exact ⟨r₀, by simp [hr₀], h⟩

/-- C8: `applyDiversityFilter` never drops a record — its output carries
exactly the input movieIds (as a permutation) — and, for nonnegative input
scores, no diversity-adjusted score exceeds its pre-diversity value; a
non-positive `diversityFactor` skips the stage and returns the input
unchanged. -/
theorem claim8_diversity (recs : List HybridRecord) (dF : ℚ) :
    (dF ≤ 0 → applyDiversityFilter recs dF = recs) ∧
    ((∀ r ∈ recs, 0 ≤ r.score) →
      ((applyDiversityFilter recs dF).map (fun r => r.movieId)).Perm
        (recs.map (fun r => r.movieId)) ∧
      ∀ r ∈ applyDiversityFilter recs dF,
        ∃ r₀ ∈ recs, r.movieId = r₀.movieId ∧ r.movie = r₀.movie ∧ r.score ≤ r₀.score) := by
  constructor
  · intro h
    unfold applyDiversityFilter
    rw [if_pos h]
  · intro h0
    by_cases hdF : dF ≤ 0
    · unfold applyDiversityFilter
      rw [if_pos hdF]
      exact ⟨List.Perm.refl _, fun r hr => ⟨r, hr, rfl, rfl, le_refl _⟩⟩
    · push_neg at hdF
      unfold applyDiversityFilter
      rw [if_neg (not_le.mpr hdF)]
      have hperm := List.perm_insertionSort (fun a b : HybridRecord => b.score ≤ a.score) recs
      constructor
      · rw [diversityWalk_ids]
        exact hperm.map _
      · intro r hr
        obtain ⟨r₀, hr₀, h⟩ := diversityWalk_le dF hdF.le _ [] []
          (fun y hy => h0 y (hperm.mem_iff.mp hy)) r hr
        exact ⟨r₀, hperm.mem_iff.mp hr₀, h⟩

/-- Witness for C8 on two overlapping records with factor `1/4`. -/
theorem claim8_witness :
    ((applyDiversityFilter demoDivRecs (1/4)).map (fun r => r.movieId)).Perm
      (demoDivRecs.map (fun r => r.movieId)) :=
  ((claim8_diversity demoDivRecs (1/4)).2 (by
    intro r hr
    simp only [demoDivRecs, List.mem_cons, List.mem_singleton] at hr
    rcases hr with rfl | rfl | h
    · norm_num
    · norm_num
    · simp at h)).1

/-- The sessions emitted by the grouping loop concatenate back to the
processed list: the current session (kept in reverse) followed by the
remaining actions. -/
theorem sessionGo_flatten (t : ℤ) : ∀ (rest cur : List UAction),
    (sessionGo t cur rest).flatten = cur.reverse ++ rest := by
  intro rest
  induction rest with
  | nil =>
    intro cur
    simp [sessionGo]
  | cons a rest ih =>
    intro cur
    cases cur with
    | nil =>
      simp only [sessionGo]
      rw [ih [a]]
      simp
    | cons last ct =>
      by_cases hgap : a.timestamp - last.timestamp ≤ t
      · simp only [sessionGo, if_pos hgap]
        rw [ih (a :: last :: ct)]
        simp
      · simp only [sessionGo, if_neg hgap, List.flatten_cons]
        rw [ih [a]]
        simp

/-- Every session emitted by the grouping loop is nonempty. -/
theorem sessionGo_ne_nil (t : ℤ) : ∀ (rest cur : List UAction), cur ≠ [] →
    ∀ s ∈ sessionGo t cur rest, s ≠ [] := by
  intro rest
  induction rest with
  | nil =>
    intro cur hne s hs
    simp only [sessionGo, List.mem_singleton] at hs
    subst hs
    simpa using hne
  | cons a rest ih =>
    intro cur hne s hs
    cases cur with
    | nil => exact absurd rfl hne
    | cons last ct =>
      by_cases hgap : a.timestamp - last.timestamp ≤ t
      · rw [sessionGo, if_pos hgap] at hs
        exact ih (a :: last :: ct) (by simp) s hs
      · rw [sessionGo, if_neg hgap] at hs
        rcases List.mem_cons.mp hs with rfl | hs
        · simp
        · exact ih [a] (by simp) s hs

/-- The grouping loop emits a nonempty session list whose first session
starts with the first action of the current session. -/
theorem sessionGo_head (t : ℤ) : ∀ (rest cur : List UAction), cur ≠ [] →
    ∃ s ss, sessionGo t cur rest = s :: ss ∧ s.head? = cur.getLast? := by
  intro rest
  induction rest with
  | nil =>
    intro cur hne
    exact ⟨cur.reverse, [], rfl, List.head?_reverse cur⟩
  | cons a rest ih =>
    intro cur hne
    cases cur with
    | nil => exact absurd rfl hne
    | cons last ct =>
      by_cases hgap : a.timestamp - last.timestamp ≤ t
      · rw [sessionGo, if_pos hgap]
        obtain ⟨s, ss, heq, hhead⟩ := ih (a :: last :: ct) (by simp)
        refine ⟨s, ss, heq, ?_⟩
        rw [hhead, List.getLast?_cons_cons]
      · rw [sessionGo, if_neg hgap]
        exact ⟨(last :: ct).reverse, _, rfl, List.head?_reverse _⟩

/-- Within-session and between-session gap properties of the grouping
loop, for a globally sorted input: every emitted session is a `≤ t` chain
of ascending timestamps, and consecutive sessions are separated by a gap
strictly above `t`. -/
theorem sessionGo_chains (t : ℤ) : ∀ (rest cur : List UAction),
    List.Chain' (fun x y => x.timestamp ≤ y.timestamp) (cur.reverse ++ rest) →
    List.Chain' (fun x y => x.timestamp ≤ y.timestamp ∧ y.timestamp - x.timestamp ≤ t)
      cur.reverse →
    (∀ s ∈ sessionGo t cur rest,
      List.Chain' (fun x y => x.timestamp ≤ y.timestamp ∧ y.timestamp - x.timestamp ≤ t) s) ∧
    List.Chain' (fun s₁ s₂ => ∀ x ∈ s₁.getLast?, ∀ y ∈ s₂.head?, t < y.timestamp - x.timestamp)
      (sessionGo t cur rest) := by
  intro rest
  induction rest with
  | nil =>
    intro cur hsort hchain
    constructor
    · intro s hs
      simp only [sessionGo, List.mem_singleton] at hs
      subst hs
      exact hchain
    · simp [sessionGo]
  | cons a rest ih =>
    intro cur hsort hchain
    cases cur with
    | nil =>
      simp only [sessionGo]
      apply ih [a]
      · simpa using hsort
      · simp
    | cons last ct =>
      by_cases hgap : a.timestamp - last.timestamp ≤ t
      · rw [sessionGo, if_pos hgap]
        have heq : (a :: last :: ct).reverse ++ rest = (last :: ct).reverse ++ (a :: rest) := by
          simp
        apply ih (a :: last :: ct)
        · rw [heq]
          exact hsort
        · have hrev : (a :: last :: ct).reverse = (last :: ct).reverse ++ [a] := by simp
          rw [hrev]
          apply List.chain'_append.mpr
          refine ⟨hchain, by simp, ?_⟩
          intro x hx y hy
          rw [List.getLast?_reverse] at hx
          simp only [List.head?_cons, Option.mem_def, Option.some.injEq] at hx hy
          subst hx
          subst hy
          refine ⟨?_, hgap⟩
          have hlink := (List.chain'_append.mp hsort).2.2
          apply hlink
          · rw [List.getLast?_reverse]
            rfl
          · rfl
      · rw [sessionGo, if_neg hgap]
        have hsort' : List.Chain' (fun x y => x.timestamp ≤ y.timestamp) ([a].reverse ++ rest) := by
          have := (List.chain'_append.mp hsort).2.1
          simpa using this
        have ihres := ih [a] hsort' (by simp)
        constructor
        · intro s hs
          rcases List.mem_cons.mp hs with rfl | hs
          · exact hchain
          · exact ihres.1 s hs
        · rw [List.chain'_cons']
          refine ⟨?_, ihres.2⟩
          obtain ⟨s, ss, heq, hhead⟩ := sessionGo_head t rest [a] (by simp)
          intro s' hs'
          rw [heq] at hs'
          simp only [List.head?_cons, Option.mem_def, Option.some.injEq] at hs'
          subst hs'
          intro x hx y hy
          rw [List.getLast?_reverse] at hx
          simp only [List.head?_cons, Option.mem_def, Option.some.injEq] at hx
          subst hx
          rw [hhead] at hy
          simp only [List.getLast?_singleton, Option.mem_def, Option.some.injEq] at hy
          subst hy
          omega

/-- C9: `groupActionsBySessions` with the 30-minute timeout sorts the
actions ascending by timestamp and partitions exactly that sorted list
(chronological emission); within a session adjacent actions are ascending
with gaps of at most 30 minutes, and the gap from the last action of one
session to the first action of the next exceeds 30 minutes. -/
theorem claim9_sessions (actions : List UAction) :
    ((groupActionsBySessions actions DEFAULT_SESSION_TIMEOUT).flatten =
      sortByTimestamp actions) ∧
    (sortByTimestamp actions).Pairwise (fun x y => x.timestamp ≤ y.timestamp) ∧
    (∀ s ∈ groupActionsBySessions actions DEFAULT_SESSION_TIMEOUT, s ≠ []) ∧
    (∀ s ∈ groupActionsBySessions actions DEFAULT_SESSION_TIMEOUT,
      s.Chain' (fun x y => x.timestamp ≤ y.timestamp ∧
        y.timestamp - x.timestamp ≤ DEFAULT_SESSION_TIMEOUT)) ∧
    (groupActionsBySessions actions DEFAULT_SESSION_TIMEOUT).Chain'
      (fun s₁ s₂ => ∀ x ∈ s₁.getLast?, ∀ y ∈ s₂.head?,
        DEFAULT_SESSION_TIMEOUT < y.timestamp - x.timestamp) := by
  have htot : IsTotal UAction (fun x y => x.timestamp ≤ y.timestamp) :=
    ⟨fun a b => le_total a.timestamp b.timestamp⟩
  have htrans : IsTrans UAction (fun x y => x.timestamp ≤ y.timestamp) :=
    ⟨fun a b c hab hbc => le_trans hab hbc⟩
  have hsorted : (sortByTimestamp actions).Pairwise (fun x y => x.timestamp ≤ y.timestamp) := by
    unfold sortByTimestamp
    exact @List.sorted_insertionSort _ _ _ htot htrans actions
  cases h : sortByTimestamp actions with
  | nil =>
    have hg : groupActionsBySessions actions DEFAULT_SESSION_TIMEOUT = [] := by
      unfold groupActionsBySessions
      rw [h]
    rw [hg]
    simp
  | cons a rest =>
    rw [h] at hsorted
    have hg : groupActionsBySessions actions DEFAULT_SESSION_TIMEOUT =
        sessionGo DEFAULT_SESSION_TIMEOUT [a] rest := by
      unfold groupActionsBySessions
      rw [h]
    have hchain : List.Chain' (fun x y => x.timestamp ≤ y.timestamp) ([a].reverse ++ rest) := by
      simpa using hsorted.chain'
    have hch := sessionGo_chains DEFAULT_SESSION_TIMEOUT rest [a] hchain (by simp)
    refine ⟨?_, hsorted, ?_, ?_, ?_⟩
    · rw [hg, sessionGo_flatten]
      simp
    · rw [hg]
      exact sessionGo_ne_nil DEFAULT_SESSION_TIMEOUT rest [a] (by simp)
    · rw [hg]
      exact hch.1
    · rw [hg]
      exact hch.2

/-- Witness for C9 on the three-action fixture (15 min, 0, 60 min): two
sessions of sizes two and one, concatenating to the sorted list. -/
theorem claim9_witness :
    ((groupActionsBySessions demoActions DEFAULT_SESSION_TIMEOUT).flatten =
      sortByTimestamp demoActions) ∧
    (groupActionsBySessions demoActions DEFAULT_SESSION_TIMEOUT).map
      (List.map (fun a => a.timestamp)) = [[0, 900000], [3600000]] := by
  refine ⟨(claim9_sessions demoActions).1, ?_⟩
  norm_num [groupActionsBySessions, sortByTimestamp, demoActions, demoAction,
    List.insertionSort, List.orderedInsert, sessionGo, DEFAULT_SESSION_TIMEOUT]

/-- Every popularity-fallback record carries the requested source tag. -/
theorem popularityFallback_source (L : ℕ → ℚ) (movies : List Movie) (src : String) :
    ∀ r ∈ popularityFallback L movies src, r.source = src := by
  intro r hr
  simp only [popularityFallback, List.mem_map] at hr
  obtain ⟨m, _, rfl⟩ := hr
  rfl

/-- C4 counterexample: a user with `ratingCount = 0`, no recent actions and
working downstream reads gets a profile whose `preferences` object is
present (with an empty genre map, which is truthy in JS), so
`extractRulePreferences` does not return `null` and the rule scorer emits
`rule-based` records, not `rule-cold`. -/
theorem claim4_counterexample :
    (getUserProfile (fun _ => 0) 0 2023 [] [] []).ratingCount = 0 ∧
    (getUserProfile (fun _ => 0) 0 2023 [] [] []).recentActions = [] ∧
    (ruleBasedRecommendation (fun _ => 0) [demoC4Movie]
      (getUserProfile (fun _ => 0) 0 2023 [] [] [])).map (fun r => r.source) =
      ["rule-based"] ∧
    ("rule-based" : String) ≠ "rule-cold" := by
  refine ⟨rfl, rfl, ?_, by decide⟩
  simp [ruleBasedRecommendation, extractRulePreferences, getUserProfile,
    calculateUserPreferences, emptyPrefAcc, normalizePreferenceMap, calculateRuntimePreference,
    calculateYearPreference, calculateRatingVariance, calculateRecencyScore, jsOr]

/-- C4 amended: for a user with `ratingCount = 0`, empty recent actions,
working downstream reads and no matrix predictions, the content,
collaborative and sequence scorers return their popularity-fallback forms
(`content-cold`, `collaborative-cold`, `sequence-cold`), but the rule
scorer returns `rule-based` records; the rule scorer goes `rule-cold` only
for the degenerate error-path profile, whose `preferences` is absent. -/
theorem claim4_amended (L : ℕ → ℚ) (recencyW : ℤ → ℕ → ℚ) (decayOf : ℤ → ℚ) (now : ℤ)
    (currentYear : ℚ) (allActions : List UAction) (movies : List Movie) :
    (∀ r ∈ contentBasedRecommendation L movies
        (getUserProfile decayOf now currentYear [] [] allActions), r.source = "content-cold") ∧
    (∀ r ∈ collaborativeFiltering L [] [] movies, r.source = "collaborative-cold") ∧
    (∀ r ∈ sequenceBasedRecommendation L recencyW movies
        (getUserProfile decayOf now currentYear [] [] allActions), r.source = "sequence-cold") ∧
    (∀ r ∈ ruleBasedRecommendation L movies
        (getUserProfile decayOf now currentYear [] [] allActions), r.source = "rule-based") ∧
    (∀ r ∈ ruleBasedRecommendation L movies degenerateProfile, r.source = "rule-cold") := by
  refine ⟨?_, ?_, ?_, ?_, ?_⟩
  · intro r hr
    have heq : contentBasedRecommendation L movies
        (getUserProfile decayOf now currentYear [] [] allActions) =
        popularityFallback L movies "content-cold" := by
      simp [contentBasedRecommendation, getUserProfile]
    rw [heq] at hr
    exact popularityFallback_source _ _ _ r hr
  · intro r hr
    have heq : collaborativeFiltering L [] [] movies =
        popularityFallback L movies "collaborative-cold" := by
      simp [collaborativeFiltering, userBasedCollaborativeFiltering, findSimilarUsers]
    rw [heq] at hr
    exact popularityFallback_source _ _ _ r hr
  · intro r hr
    have heq : sequenceBasedRecommendation L recencyW movies
        (getUserProfile decayOf now currentYear [] [] allActions) =
        popularityFallback L movies "sequence-cold" := by
      simp [sequenceBasedRecommendation, getUserProfile, DEFAULT_SEQUENCE_WINDOW]
    rw [heq] at hr
    exact popularityFallback_source _ _ _ r hr
  · intro r hr
    have heq : ruleBasedRecommendation L movies
        (getUserProfile decayOf now currentYear [] [] allActions) =
        movies.map (fun m => ⟨m.id, some m,
          calculateRuleScore m ⟨((List.insertionSort (fun a b : String × ℚ => b.2 ≤ a.2)
              (calculateUserPreferences currentYear []).genres).take 3).map (fun p => p.1),
            jsOr (calculateUserPreferences currentYear []).ratingThreshold 6.5,
            (calculateUserPreferences currentYear []).yearPreference,
            (calculateUserPreferences currentYear []).runtimePreference⟩, "rule-based"⟩) := by
      simp [ruleBasedRecommendation, extractRulePreferences, getUserProfile]
    rw [heq] at hr
    simp only [List.mem_map] at hr
    obtain ⟨m, _, rfl⟩ := hr
    rfl
  · intro r hr
    have heq : ruleBasedRecommendation L movies degenerateProfile =
        popularityFallback L movies "rule-cold" := by
      simp [ruleBasedRecommendation, extractRulePreferences, degenerateProfile]
    rw [heq] at hr
    exact popularityFallback_source _ _ _ r hr

/-- Witness for C4 amended: the content scorer's cold record for the
fixture movie. -/
theorem claim4_witness :
    (⟨7, some demoC4Movie, calculatePopularityScore (fun _ => 0) demoC4Movie,
      "content-cold"⟩ : ScoreRecord) ∈
      contentBasedRecommendation (fun _ => 0) [demoC4Movie]
        (getUserProfile (fun _ => 0) 0 2023 [] [] []) ∧
    (⟨7, some demoC4Movie, calculatePopularityScore (fun _ => 0) demoC4Movie,
      "content-cold"⟩ : ScoreRecord).source = "content-cold" := by
  have hmem : (⟨7, some demoC4Movie, calculatePopularityScore (fun _ => 0) demoC4Movie,
      "content-cold"⟩ : ScoreRecord) ∈
      contentBasedRecommendation (fun _ => 0) [demoC4Movie]
        (getUserProfile (fun _ => 0) 0 2023 [] [] []) := by
    simp [contentBasedRecommendation, getUserProfile, popularityFallback, demoC4Movie]
  exact ⟨hmem,
    (claim4_amended (fun _ => 0) (fun _ _ => 0) (fun _ => 0) 0 2023 [] [demoC4Movie]).1 _ hmem⟩

/-- The final ranking stage keeps only records at or above the score
cutoff, is sorted by score descending, and returns at most `count`
records. -/
theorem rankRecommendations_spec (minScore : ℚ) (count : ℕ) (l : List HybridRecord) :
    (∀ r ∈ rankRecommendations minScore count l, minScore ≤ r.score) ∧
    (rankRecommendations minScore count l).Pairwise (fun a b => b.score ≤ a.score) ∧
    (rankRecommendations minScore count l).length ≤ count := by
  have htot : IsTotal HybridRecord (fun a b => b.score ≤ a.score) :=
    ⟨fun a b => le_total b.score a.score⟩
  have htrans : IsTrans HybridRecord (fun a b => b.score ≤ a.score) :=
    ⟨fun a b c hab hbc => le_trans hbc hab⟩
  refine ⟨?_, ?_, ?_⟩
  · intro r hr
    unfold rankRecommendations at hr
    have h1 := List.mem_of_mem_take hr
    have h2 := (List.perm_insertionSort
      (fun a b : HybridRecord => b.score ≤ a.score) _).mem_iff.mp h1
    have h3 := (List.mem_filter.mp h2).2
    simpa using h3
  · unfold rankRecommendations
    apply List.Pairwise.sublist (List.take_sublist _ _)
    exact @List.sorted_insertionSort _ _ _ htot htrans _
  · unfold rankRecommendations
    exact List.length_take_le _ _

/-- C7 amended: on a cache miss, the spec-modelled orchestrator (catalog
supplied per §6, all else as in the source) returns only records with
score at least `minScore`, sorted by score descending — with ties left in
the pre-sort fusion order, since the comparator never consults the itemId —
and at most `count` records. -/
theorem claim7_amended (L : ℕ → ℚ) (recencyW : ℤ → ℕ → ℚ) (allMovies : List Movie)
    (userProfile : UserProfile) (predictions : List Prediction) (userRatings : List UAction)
    (ratedIds watchlistIds : List ℕ) (opts : RecOptions) :
    (∀ r ∈ (generateRecommendationsWithCatalog L recencyW allMovies none userProfile
        predictions userRatings ratedIds watchlistIds opts).1, opts.minScore ≤ r.score) ∧
    ((generateRecommendationsWithCatalog L recencyW allMovies none userProfile
        predictions userRatings ratedIds watchlistIds opts).1.Pairwise
      (fun a b => b.score ≤ a.score)) ∧
    ((generateRecommendationsWithCatalog L recencyW allMovies none userProfile
        predictions userRatings ratedIds watchlistIds opts).1.length ≤ opts.count) := by
  simp only [generateRecommendationsWithCatalog]
  by_cases hA : (getAvailableMoviesWithCatalog allMovies opts.excludeRated opts.excludeWatchlist
      ratedIds watchlistIds).length = 0
  · rw [if_pos hA]
    simp
  · rw [if_neg hA]
    exact rankRecommendations_spec opts.minScore opts.count _

/-- C7 counterexample: with a two-movie catalog of identical statistics in
id order `[5, 3]`, the cache-miss result ties both scores at `0.4` and
keeps the fusion insertion order `[5, 3]` — the comparator
`(a, b) => b.score - a.score` never consults the itemId, so the claimed
itemId-ascending tie-break `[3, 5]` does not hold. -/
theorem claim7_counterexample :
    ((generateRecommendationsWithCatalog (fun _ => 0) (fun _ _ => 0) [c7MovieA, c7MovieB] none
      degenerateProfile [] [] [] [] c7Opts).1.map (fun r => r.movieId) = [5, 3]) ∧
    ¬ SortedByScoreThenId
      (generateRecommendationsWithCatalog (fun _ => 0) (fun _ _ => 0) [c7MovieA, c7MovieB] none
        degenerateProfile [] [] [] [] c7Opts).1 := by
  have hres : (generateRecommendationsWithCatalog (fun _ => 0) (fun _ _ => 0)
      [c7MovieA, c7MovieB] none degenerateProfile [] [] [] [] c7Opts).1 =
      [⟨5, c7MovieA, 2/5, 2/5, 2/5, 2/5, none, 2/5, ⟨2/5, 1/10, 1/5, 3/10⟩, "hybrid"⟩,
       ⟨3, c7MovieB, 2/5, 2/5, 2/5, 2/5, none, 2/5, ⟨2/5, 1/10, 1/5, 3/10⟩, "hybrid"⟩] := by
    norm_num [generateRecommendationsWithCatalog, getAvailableMoviesWithCatalog,
      calculateWeights, normalizeWeights, degenerateProfile, contentBasedRecommendation,
      collaborativeFiltering, userBasedCollaborativeFiltering, findSimilarUsers,
      sequenceBasedRecommendation, ruleBasedRecommendation, extractRulePreferences,
      popularityFallback, calculatePopularityScore, combineScores, ingestScores, ingestOne,
      setStrat, applyDiversityFilter, rankRecommendations, List.insertionSort,
      List.orderedInsert, jsOr, c7MovieA, c7MovieB, c7Opts, HybridRecord.mk.injEq,
      Weights.mk.injEq]
  rw [hres]
  constructor
  · simp
  · simp only [SortedByScoreThenId, List.pairwise_cons, List.mem_singleton, forall_eq]
    norm_num

/-- Witness for C7 amended on the two-movie fixture: at most `count`
records are returned. -/
theorem claim7_witness :
    (generateRecommendationsWithCatalog (fun _ => 0) (fun _ _ => 0) [c7MovieA, c7MovieB] none
      degenerateProfile [] [] [] [] c7Opts).1.length ≤ c7Opts.count :=
  (claim7_amended (fun _ => 0) (fun _ _ => 0) [c7MovieA, c7MovieB] degenerateProfile
    [] [] [] [] c7Opts).2.2
